import Mathlib

/-!
# Verification of the lpt2pdf PDF engine (lpt2pdf.c)

A shallow embedding of the core of `lpt2pdf.c` (the input-stream escape
parser, the pagination and page writer, the LZW encoder, and the
checkpoint/close protocol), together with theorems settling the frozen
claims about the natural-language specification of this program.

Conventions of the embedding:
* C `double` values are modelled as exact fractions (`Frac`); casts
  `(int)x` are modelled by truncation toward zero (`ctrunc`).
* C unsigned integers are modelled as `Nat`, with an explicit
  `% 2 ^ w` wherever the width of the C type can matter.
* Byte strings and buffers are `List Nat` (each element `< 256`;
  the 16-bit wide-character buffers hold elements `< 65536`).
* The output `FILE*` is modelled as a byte list plus a write position;
  `fwrite` overwrites in place and extends at the end, as a seekable
  file does.
* The fields of `struct PDF` used by the escape parser are grouped in
  the sub-record `EscSt` (the grouping is only notational; the fields
  are the same).
-/

namespace Lpt2Pdf

/-- ASCII bytes of a Lean string literal (all strings used are ASCII). -/
def String.bytes (s : String) : List Nat := s.toList.map Char.toNat

/-! ## Exact fractions

C `double` values are modelled as exact unreduced fractions (numerator
and positive denominator), with arithmetic defined directly so that
every operation reduces in the kernel.  All configuration values are
small decimals, far from the binade boundaries where `double` rounding
could change any comparison made by the program. -/

structure Frac where
  num : Int
  den : Nat
  deriving DecidableEq

/-- Embed an integer. -/
def Frac.ofInt (n : Int) : Frac := ⟨n, 1⟩

/-- Embed a natural number (C `unsigned` converted to `double`). -/
def Frac.ofNat (n : Nat) : Frac := ⟨n, 1⟩

def Frac.add (a b : Frac) : Frac := ⟨a.num * b.den + b.num * a.den, a.den * b.den⟩

def Frac.sub (a b : Frac) : Frac := ⟨a.num * b.den - b.num * a.den, a.den * b.den⟩

def Frac.mul (a b : Frac) : Frac := ⟨a.num * b.num, a.den * b.den⟩

/-- Division; keeps the denominator nonnegative. -/
def Frac.div (a b : Frac) : Frac :=
  if 0 ≤ b.num then ⟨a.num * b.den, a.den * b.num.toNat⟩
  else ⟨-(a.num * b.den), a.den * (-b.num).toNat⟩

def Frac.neg (a : Frac) : Frac := ⟨-a.num, a.den⟩

instance : Add Frac := ⟨Frac.add⟩
instance : Sub Frac := ⟨Frac.sub⟩
instance : Mul Frac := ⟨Frac.mul⟩
instance : Div Frac := ⟨Frac.div⟩
instance : Neg Frac := ⟨Frac.neg⟩

/-- `a < b` as values (denominators positive by construction). -/
def Frac.ltb (a b : Frac) : Bool := a.num * b.den < b.num * a.den

/-- `a ≤ b` as values. -/
def Frac.leb (a b : Frac) : Bool := a.num * b.den ≤ b.num * a.den

/-- C cast of a `double` to an integer type: truncation toward zero
(`Int.tdiv` truncates toward zero). -/
def ctrunc (q : Frac) : Int := Int.tdiv q.num q.den

/-- `fr n d`: the literal `n / d`. -/
def fr (n : Int) (d : Nat) : Frac := ⟨n, d⟩

/-! ## Strict list helpers

Buffers and files reach tens of kilobytes; `List.length` and list
`DecidableEq` recurse non-tail-recursively and overflow the evaluation
stack there.  `blen` and `listEqTR` compute the same functions with an
accumulator that is forced at every step (the `Nat` pattern match keeps
the accumulator a literal), so evaluation stays shallow.  They are
proved equal to the library functions below. -/

/-- Tail-recursive, strict `List.length`. -/
def blenGo : List Nat → Nat → Nat
  | [], n => n
  | _ :: t, 0 => blenGo t 1
  | _ :: t, n + 1 => blenGo t (n + 2)

/-- Strict length of a byte list. -/
def blen (l : List Nat) : Nat := blenGo l 0

/-- Tail-recursive list equality. -/
def listEqTR : List Nat → List Nat → Bool
  | [], [] => true
  | a :: as, b :: bs => a == b && listEqTR as bs
  | _, _ => false

/-! ## printf-style formatting

The formatted output of `fprintf`/`sprintf`/`wrstmf` as byte lists.
`%f` (default precision 6) is modelled on the exact fraction with
round-half-to-even in the sixth decimal; the program only ever compares
whole formatted byte strings, produced deterministically from the same
values on every path, so the claims do not depend on the exact rounding
of the last digit. -/

/-- Decimal digits of `n` (at most 20 digits — `fuel` bounds the
division loop structurally; every formatted value fits). -/
def fmtNatAux : Nat → Nat → List Nat
  | 0, _ => []
  | fuel + 1, n => if n = 0 then [] else fmtNatAux fuel (n / 10) ++ [0x30 + n % 10]

/-- `%u` — decimal representation. -/
def fmtNat (n : Nat) : List Nat := if n = 0 then [0x30] else fmtNatAux 20 n

/-- `%0<w>u` / `%<w>u` — padded decimal. -/
def fmtNatPad (w : Nat) (pad : Nat) (n : Nat) : List Nat :=
  List.replicate (w - blen (fmtNat n)) pad ++ fmtNat n

/-- `%f` of a nonnegative fraction: six decimals, round half to even. -/
def fmtFnn (q : Frac) : List Nat :=
  let t := q.num.toNat * 1000000
  let k := t / q.den
  let r := t % q.den
  let k :=
    if q.den < 2 * r then k + 1
    else if 2 * r = q.den ∧ k % 2 = 1 then k + 1
    else k
  fmtNat (k / 1000000) ++ [0x2E] ++ fmtNatPad 6 0x30 (k % 1000000)

/-- `%f` — six decimals. -/
def fmtF (q : Frac) : List Nat :=
  if q.num < 0 then 0x2D :: fmtFnn ⟨-q.num, q.den⟩ else fmtFnn q

/-! ## The output file

`FILE *pdf` is a seekable file: writing at `fpos` overwrites in place
and extends at the end. -/

/-- `fwrite` of `bytes` at position `pos` of file `f`. -/
def fileWrite (f : List Nat) (pos : Nat) (bytes : List Nat) : List Nat :=
  f.take pos ++ bytes ++ f.drop (pos + blen bytes)

/-! ## Error codes

`lpt2pdf.h` (not part of the sources) assigns the numeric values of the
`PDF_E_*` codes.  Modelled from the spec: the error taxonomy of spec §7;
only distinctness of the codes matters to the claims, so the values here
are arbitrary distinct naturals above a base, with `PDF_OK = 0`. -/

def PDF_OK : Nat := 0
def E_BAD_FILENAME : Nat := 1001
def E_NOT_PDF : Nat := 1002
def E_NO_APPEND : Nat := 1003
def E_NOT_PRODUCED : Nat := 1004
def E_NOT_EMPTY : Nat := 1005
def E_INVAL : Nat := 1006
def E_NEGVAL : Nat := 1007
def E_ACTIVE : Nat := 1008
def E_INCON_GEO : Nat := 1009
def E_UNKNOWN_FONT : Nat := 1010
def E_UNKNOWN_FORM : Nat := 1011
def E_BAD_JPEG : Nat := 1012
def E_BAD_SET : Nat := 1013
def E_IO_ERROR : Nat := 1014
def E_OTHER_IO_ERROR : Nat := 1015
def E_BUGCHECK : Nat := 1016
def E_NOT_OPEN : Nat := 1017
def E_BAD_ERRNO : Nat := 1018
def E_BAD_HANDLE : Nat := 1019

/-! ## The context (struct PDF) -/

/-- Escape-sequence parser states (`ESC_*` in lpt2pdf.c). -/
inductive EscState
  | idle | escseq | csi | csip | csiint | badcsi | badesc | badstr
  deriving DecidableEq

/-- `ESC_PDEFAULT`: `(unsigned short)(~0u) = 0xFFFF`. -/
def ESC_PDEFAULT : Nat := 0xFFFF

/-- `ESC_POVERFLOW`: `(((unsigned long)ESC_PDEFAULT) + 1) >> 1 = 0x8000`. -/
def ESC_POVERFLOW : Nat := 0x8000

/-- `ESC_PMAX = ESC_POVERFLOW - 1 = 0x7FFF`. -/
def ESC_PMAX : Nat := ESC_POVERFLOW - 1

/-- `tof` default `~1u` (32-bit): marker for "not set by the user". -/
def TOF_UNSET : Nat := 4294967294

/-- File-requirement values (`PDF_FILE_*`). -/
def PDF_FILE_NEW : Nat := 0
def PDF_FILE_APPEND : Nat := 1
def PDF_FILE_REPLACE : Nat := 2

/-- Form types (indices into `colors`, plus the internal `PDF_JPEG`). -/
def PDF_PLAIN : Nat := 0
def PDF_GREENBAR : Nat := 1
def PDF_JPEG : Nat := 99

/-- The fields of `struct PDF` used by the escape-sequence parser:
`escstate, escints, escin, escprv, escpars, escpn, newlpi`, and the
parser's output buffer `parsebuf` (a 16-bit wide-char buffer). -/
structure EscSt where
  escstate : EscState
  escints : List Nat
  escin : Nat
  escprv : Nat
  escpars : List Nat
  escpn : Nat
  newlpi : Nat
  parsebuf : List Nat
  deriving DecidableEq

/-- The session context `struct PDF`, with the fields the modelled
operations use.  Flag bits of `pdf->flags` are individual `Bool`s.
The output file (`FILE *pdf`) is modelled as the byte list `file`
with write position `fpos`. -/
structure PdfState where
  frequire : Nat
  cpi : Frac
  lpi : Nat
  cols : Nat
  wid : Frac
  len : Frac
  font : List Nat
  nfont : List Nat
  nbold : List Nat
  title : List Nat
  top : Frac
  tof : Nat
  bot : Frac
  margin : Frac
  lno : Frac
  formtype : Nat
  barh : Frac
  errnum : Nat
  esc : EscSt
  formbuf : List Nat
  formobj : Nat
  oid : List Nat
  ctime : List Nat
  prevpc : Nat
  trail : List Nat
  anchorp : Nat
  anchorpp : Nat
  checkpp : Nat
  aobj : Nat
  obj : Nat
  xref : Nat → Nat
  active : Bool
  updating : Bool
  uncompressed : Bool
  inited : Bool
  written : Bool
  resumed : Bool
  lpp : Nat
  lines : List (Option (List Nat))
  page : Nat
  line : Nat
  sha1bytes : List Nat
  pbase : Nat
  iobj : Nat
  pagebuf : List Nat
  lzwbuf : List Nat
  file : List Nat
  fpos : Nat

/-- The `defaults` initializer of lpt2pdf.c: default configuration in the
first section, zero/empty in the second; an empty file at position 0. -/
def defaults : PdfState where
  frequire := PDF_FILE_NEW
  cpi := fr 10 1
  lpi := 6
  cols := 132
  wid := fr 14875 1000
  len := fr 11 1
  font := String.bytes "Courier"
  nfont := String.bytes "Times-Roman"
  nbold := String.bytes "Times-Bold"
  title := String.bytes "Lineprinter data"
  top := fr 1 1
  tof := TOF_UNSET
  bot := fr 500 1000
  margin := fr 470 1000
  lno := fr 100 1000
  formtype := PDF_GREENBAR
  barh := fr 500 1000
  errnum := 0
  esc := { escstate := EscState.idle
           escints := [0, 0, 0, 0]
           escin := 0
           escprv := 0
           escpars := List.replicate 16 0
           escpn := 0
           newlpi := 6
           parsebuf := [] }
  formbuf := []
  formobj := 0
  oid := []
  ctime := []
  prevpc := 0
  trail := []
  anchorp := 0
  anchorpp := 0
  checkpp := 0
  aobj := 0
  obj := 0
  xref := fun _ => 0
  active := false
  updating := false
  uncompressed := false
  inited := false
  written := false
  resumed := false
  lpp := 0
  lines := []
  page := 0
  line := 0
  sha1bytes := []
  pbase := 0
  iobj := 0
  pagebuf := []
  lzwbuf := []
  file := []
  fpos := 0

/-- Write `bytes` at the current position, advancing it. -/
def wrf (s : PdfState) (bytes : List Nat) : PdfState :=
  { s with file := fileWrite s.file s.fpos bytes, fpos := s.fpos + blen bytes }

/-- `fseek(pdf->pdf, pos, SEEK_SET)`. -/
def fseekTo (s : PdfState) (pos : Nat) : PdfState := { s with fpos := pos }

/-- `ftruncate` at the current position. -/
def ftruncateHere (s : PdfState) : PdfState := { s with file := s.file.take s.fpos }

/-- `addobj`: record the file position of the next object in the xref
slot `obj`, increment the object counter, return the object id. -/
def addobj (s : PdfState) : PdfState × Nat :=
  ({ s with xref := fun i => if i = s.obj then s.fpos else s.xref i
            obj := s.obj + 1 }, s.obj + 1)

/-! ## The input parser (`parsestr`)

`parsestr` consumes raw bytes and appends canonicalized 16-bit
characters to `parsebuf`.  The per-call locals `initial` (discard a
leading `CR* FF`) and `ffseen` are threaded through the fold. -/

/-- One parser step's running data: the parser fields plus the
per-call locals of `parsestr`. -/
structure ParseRun where
  e : EscSt
  initial : Bool
  ffseen : Nat
  deriving DecidableEq

/-- `store:` label — append the character and clear `initial`. -/
def parseStore (r : ParseRun) (ch : Nat) : ParseRun :=
  { r with initial := false
           e := { r.e with parsebuf := r.e.parsebuf ++ [ch] } }

/-- In the source the guard on executing `CSI Pn z` is
`ch == 'z' && !pdf->escints && !pdf->escprv`.  `pdf->escints` is the
intermediate-character array member itself; as a C expression it decays
to the (never null) address of the array, so `!pdf->escints` is the
constant 0.  This definition embeds that constant. -/
def escintsArrayIsNull : Bool := false

/-- The execute-CSI action for final `z`: `Pn = 1` (or the default)
selects 6 LPI, `Pn = 2` selects 8 LPI, others are ignored. -/
def execCsiZ (r : ParseRun) : ParseRun :=
  if r.e.escpars.getD 0 0 = ESC_PDEFAULT ∨ r.e.escpars.getD 0 0 = 1 then
    { r with e := { r.e with newlpi := 6 } }
  else if r.e.escpars.getD 0 0 = 2 then
    { r with e := { r.e with newlpi := 8 } }
  else r

/-- `ESC_CSIINT` arm of the sequence switch (also entered by
fall-through from `ESC_CSIP`). -/
def parseCsiint (r : ParseRun) (ch : Nat) : ParseRun :=
  if 0x20 ≤ ch ∧ ch ≤ 0x2F then
    if r.e.escin < 4 then
      { r with e := { r.e with escints := r.e.escints.set r.e.escin ch
                               escin := r.e.escin + 1 } }
    else
      { r with e := { r.e with escstate := EscState.badcsi } }
  else if 0x40 ≤ ch ∧ ch ≤ 0x7E then
    -- Execute CSI
    if ch = 0x7A ∧ escintsArrayIsNull = true ∧ r.e.escprv = 0 then
      execCsiZ r
    else r
  else parseStore r ch

/-- `ESC_CSIP` arm of the sequence switch (also entered by fall-through
from `ESC_CSI`); falls through to `ESC_CSIINT` itself. -/
def parseCsip (r : ParseRun) (ch : Nat) : ParseRun :=
  if 0x30 ≤ ch ∧ ch ≤ 0x3F then
    if ch = 0x3B then  -- ';'
      if r.e.escpn + 1 < 16 then
        { r with e := { r.e with escpn := r.e.escpn + 1 } }
      else
        { r with e := { r.e with escstate := EscState.badcsi } }
    else if ch ≤ 0x39 then
      if r.e.escpars.getD r.e.escpn 0 = ESC_PDEFAULT then
        { r with e := { r.e with escpars := r.e.escpars.set r.e.escpn (ch - 0x30) } }
      else if r.e.escpars.getD r.e.escpn 0 &&& ESC_POVERFLOW ≠ 0 then
        { r with e := { r.e with escstate := EscState.badcsi } }
      else
        { r with e := { r.e with
            escpars := r.e.escpars.set r.e.escpn
              ((r.e.escpars.getD r.e.escpn 0 * 10 + (ch - 0x30)) % 0x10000) } }
    else
      { r with e := { r.e with escstate := EscState.badcsi } }
  else if r.e.escpars.getD r.e.escpn 0 ≠ ESC_PDEFAULT then
    parseCsiint
      { r with e := { r.e with escpn := r.e.escpn + 1, escstate := EscState.csiint } } ch
  else
    parseCsiint { r with e := { r.e with escstate := EscState.csiint } } ch

/-- The sequence switch (`switch (pdf->escstate)`) of `parsestr`. -/
def parseSeq (r : ParseRun) (ch : Nat) : ParseRun :=
  match r.e.escstate with
    | EscState.idle =>
        if ch < 0x20 ∨ (0x7F ≤ ch ∧ ch ≤ 0x9F) then r else parseStore r ch
    | EscState.escseq =>
        if 0x20 ≤ ch ∧ ch ≤ 0x2F then
          -- note: the source stores ESC intermediates into escpars
          -- and bounds escin by DIM(escpars) = 16
          if r.e.escin < 16 then
            { r with e := { r.e with escpars := r.e.escpars.set r.e.escin ch
                                     escin := r.e.escin + 1 } }
          else
            { r with e := { r.e with escstate := EscState.badesc } }
        else if 0x30 ≤ ch ∧ ch ≤ 0x7E then
          { r with e := { r.e with escstate := EscState.idle } }
        else parseStore r ch
    | EscState.csi =>
        if 0x3C ≤ ch ∧ ch ≤ 0x3F then
          { r with e := { r.e with escprv := ch, escstate := EscState.csip } }
        else
          parseCsip { r with e := { r.e with escstate := EscState.csip } } ch
    | EscState.csip => parseCsip r ch
    | EscState.csiint => parseCsiint r ch
    | EscState.badcsi =>
        if 0x40 ≤ ch ∧ ch ≤ 0x7E then
          { r with e := { r.e with escstate := EscState.idle } }
        else r
    | EscState.badesc =>
        if 0x30 ≤ ch ∧ ch ≤ 0x7E then
          { r with e := { r.e with escstate := EscState.idle } }
        else r
    | EscState.badstr => r

/-- The body of `parsestr`'s loop after the 7-bit → 8-bit code
extension: the control switch, falling through to the sequence switch. -/
def parseStepCore (r : ParseRun) (ch : Nat) : ParseRun :=
  -- control switch
  if ch = 0x0A then parseStore r ch
  else if ch = 0x0D then
    if r.initial ∧ r.ffseen = 0 then r else parseStore r ch
  else if ch = 0x0C then
    -- `if (initial && !ffseen++)`: when initial, ffseen is always
    -- post-incremented and the old value decides the discard.
    if r.initial then
      if r.ffseen = 0 then { r with ffseen := r.ffseen + 1 }
      else parseStore { r with ffseen := r.ffseen + 1 } ch
    else parseStore r ch
  else if ch = 0x18 ∨ ch = 0x1A then
    { r with e := { r.e with escstate := EscState.idle } }
  else if ch = 0x1B then
    { r with e := { r.e with escstate := EscState.escseq, escin := 0, escpn := 0 } }
  else if ch = 0x9B then
    { r with e := { r.e with escstate := EscState.csi, escin := 0, escpn := 0
                             escpars := List.replicate 16 ESC_PDEFAULT } }
  else if ch = 0x9C then
    { r with e := { r.e with escstate := EscState.idle } }
  else if ch = 0x9D ∨ ch = 0x9E ∨ ch = 0x9F then
    { r with e := { r.e with escstate := EscState.badstr } }
  else parseSeq r ch

/-- One byte of `parsestr`'s loop: mask to 8 bits, apply the
ESCSEQ 7-bit → 8-bit code extension, then run the switches. -/
def parseStep (r : ParseRun) (ch0 : Nat) : ParseRun :=
  if r.e.escstate = EscState.escseq ∧ 0x40 ≤ ch0 % 256 ∧ ch0 % 256 ≤ 0x5F then
    parseStepCore { r with e := { r.e with escstate := EscState.idle } } (ch0 % 256 + 0x40)
  else
    parseStepCore r (ch0 % 256)

/-- `parsestr(pdf, string, length, initial)` on the parser fields alone:
run the state machine over the bytes, returning the fields and the
`ffseen` counter (the C return value). -/
def parsestrE (e : EscSt) (string : List Nat) (initial : Bool) : ParseRun :=
  string.foldl parseStep { e := e, initial := initial, ffseen := 0 }

/-- `parsestr(pdf, string, length, initial)`: hash the raw bytes, then
run the state machine.  Returns the context with `parsebuf` extended,
and the `ffseen` counter (the C return value). -/
def parsestr (s : PdfState) (string : List Nat) (initial : Bool) : PdfState × Nat :=
  let r := parsestrE s.esc string initial
  ({ s with esc := r.e, sha1bytes := s.sha1bytes ++ string.map (· % 256) }, r.ffseen)

/-! ## The LZW encoder

Constants and structure from lpt2pdf.c.  The `dict` array is modelled
as a total function `Nat → LzwNode`; `lzw_init`'s `memset` zeroes it and
the loop writes the 258 identity nodes, `LZW_REINIT` rewrites only the
identity nodes (exactly as the C code does — stale higher entries remain
but every later `lzw_add_str` overwrites an entry before it can be
reached again). -/

def LZW_CLRCODE : Nat := 256
def LZW_EODCODE : Nat := 257
def LZW_IDCODES : Nat := 258
def LZW_MINBITS : Nat := 9
def LZW_MAXBITS : Nat := 12
def LZW_DSIZE : Nat := 2 ^ LZW_MAXBITS
def TREE_NULL : Nat := 0xFFFF

/-- `t_lzwNode`.  `ch` holds the byte value `0..255`; the C code stores
it through a `char` cast, but only values that went through the same
cast are ever compared, so byte values are a faithful representation. -/
structure LzwNode where
  prev : Nat
  first : Nat
  next : Nat
  ch : Nat
  deriving DecidableEq

/-- `t_lzw` in buffer mode: the output buffer, the big-endian bit
packing accumulator, the directory and the allocation state. -/
structure Lzw where
  bitbuf : Nat
  nbits : Nat
  dict : Nat → LzwNode
  assigned : Nat
  codesize : Nat
  out : List Nat

/-- The identity-code initialization loop of `lzw_init`. -/
def lzwIdentityInit (d : Nat → LzwNode) : Nat → LzwNode := fun i =>
  if i < LZW_IDCODES then { prev := TREE_NULL, first := TREE_NULL, next := TREE_NULL, ch := i }
  else d i

/-- `lzw_init(lzw, LZW_BUFFER, ...)`: cleared context, identity codes. -/
def lzw_init : Lzw where
  bitbuf := 0
  nbits := 0
  dict := lzwIdentityInit fun _ => { prev := 0, first := 0, next := 0, ch := 0 }
  assigned := LZW_IDCODES - 1
  codesize := LZW_MINBITS
  out := []

/-- `lzw_init(lzw, LZW_REINIT)`: reset the identity nodes and the
allocation state, keep everything else. -/
def lzw_reinit (l : Lzw) : Lzw :=
  { l with dict := lzwIdentityInit l.dict
           assigned := LZW_IDCODES - 1
           codesize := LZW_MINBITS }

/-- The byte-draining `while (nbits >= 8)` loop of `lzw_writebits`:
emit `(bitbuf >> (nbits - 8)) & 0xFF`, high bits first. -/
def lzwDrain (bitbuf : Nat) : Nat → List Nat
  | n + 8 => ((bitbuf >>> n) &&& 0xFF) :: lzwDrain bitbuf n
  | _ => []

/-- `lzw_writebits`: shift `nbits` new bits into the low end of the
32-bit accumulator, then drain whole bytes from the high end. -/
def lzw_writebits (l : Lzw) (bits nbits : Nat) : Lzw :=
  { l with bitbuf := ((l.bitbuf <<< nbits) ||| (bits &&& (2 ^ nbits - 1))) % 2 ^ 32
           out := l.out ++
             lzwDrain (((l.bitbuf <<< nbits) ||| (bits &&& (2 ^ nbits - 1))) % 2 ^ 32)
               (nbits + l.nbits)
           nbits := (nbits + l.nbits) % 8 }

/-- `lzw_flushbits`: pad the pending bits with zeros. -/
def lzw_flushbits (l : Lzw) : Lzw :=
  if l.nbits ≠ 0 then lzw_writebits l 0 (8 - l.nbits) else l

/-- The chain walk of `lzw_lookup_str`.  The fuel bounds the walk by the
directory size; chains are lists of previously added children, so they
are always shorter than `LZW_DSIZE` and the fuel never runs out. -/
def lzwLookupAux (d : Nat → LzwNode) (code c : Nat) : Nat → Nat → Nat
  | _, 0 => TREE_NULL
  | nc, fuel + 1 =>
    if nc = TREE_NULL then TREE_NULL
    else if (d nc).prev = code ∧ (d nc).ch = c then nc
    else lzwLookupAux d code c (d nc).next fuel

/-- `lzw_lookup_str(lzw, code, c)`. -/
def lzw_lookup_str (l : Lzw) (code c : Nat) : Nat :=
  lzwLookupAux l.dict code c (l.dict code).first LZW_DSIZE

/-- `lzw_add_str(lzw, code, c)`: allocate the next code; `TREE_NULL` if
the directory is full; grow the code size when the newly assigned code
is `(1 << codesize) - 1` (except at `LZW_MAXBITS`); link the node at the
head of `code`'s child chain. -/
def lzw_add_str (l : Lzw) (code c : Nat) : Lzw × Nat :=
  let nc := l.assigned + 1
  let l1 := { l with assigned := nc }
  if LZW_DSIZE ≤ nc then (l1, TREE_NULL)
  else
    let l2 :=
      if nc = 2 ^ l1.codesize - 1 ∧ l1.codesize ≠ LZW_MAXBITS then
        { l1 with codesize := l1.codesize + 1 }
      else l1
    ({ l2 with dict := fun i =>
        if i = nc then
          { prev := code, first := TREE_NULL, next := (l2.dict code).first, ch := c }
        else if i = code then
          { l2.dict code with first := nc }
        else l2.dict i }, nc)

/-- The per-byte loop of `lzw_encode`, carrying the running prefix
`code`; returns the final context and prefix. -/
def lzwEncodeLoop (l : Lzw) (code : Nat) : List Nat → Lzw × Nat
  | [] => (l, code)
  | c0 :: rest =>
    let c := c0 % 256
    let nc := lzw_lookup_str l code c
    if nc = TREE_NULL then
      let l := lzw_writebits l code l.codesize
      let (l, tmp) := lzw_add_str l code c
      let l :=
        if tmp = TREE_NULL then lzw_reinit (lzw_writebits l LZW_CLRCODE l.codesize)
        else l
      lzwEncodeLoop l c rest
    else
      lzwEncodeLoop l nc rest

/-- `lzw_encode(lzw, stream, len)` on a fresh buffer context: emit the
initial clear code, run the dictionary loop, then emit the pending
prefix, the EOD code, and flush. -/
def lzw_encode (stream : List Nat) : List Nat :=
  let l := lzw_writebits lzw_init LZW_CLRCODE lzw_init.codesize
  match stream with
  | [] => (lzw_flushbits (lzw_writebits l LZW_EODCODE l.codesize)).out
  | b :: rest =>
    let (l, code) := lzwEncodeLoop l (b % 256) rest
    let l := lzw_writebits l code l.codesize
    let l := lzw_writebits l LZW_EODCODE l.codesize
    (lzw_flushbits l).out

/-! ## The PDF LZWDecode algorithm

Modelled from the spec: the decoder side of the claims is the PDF
LZWDecode filter (PDF 32000-1 §7.4.4), which is not part of this
repository.  The decoder reads big-endian codes of the current width,
maintains the table of strings, and — per the standard's `EarlyChange`
parameter — increases the code width as late as possible
(`EarlyChange = 0`: when the next free entry reaches `1 << width`) or
one code early (`EarlyChange = 1`). -/

/-- The bits of a byte list, most significant bit of each byte first. -/
def bytesToBits (bs : List Nat) : List Bool :=
  bs.flatMap fun b => (List.range 8).map fun i => b.testBit (7 - i)

/-- Big-endian value of a bit list. -/
def bitsToNat (bits : List Bool) : Nat :=
  bits.foldl (fun a b => 2 * a + (if b then 1 else 0)) 0

/-- Read one code of `w` bits from `bits` of which `n` remain; `none`
when the input is exhausted. -/
def readCode (bits : List Bool) (n w : Nat) : Option (Nat × List Bool × Nat) :=
  if w ≤ n then some (bitsToNat (bits.take w), bits.drop w, n - w) else none

/-- The string a decoder table assigns to a code: identity codes map to
their byte, `256`/`257` have no string, higher codes look up the table. -/
def lzwTableStr (table : Nat → Option (List Nat)) (c : Nat) : Option (List Nat) :=
  if c < 256 then some [c]
  else if c = 256 ∨ c = 257 then none
  else table c

/-- The LZWDecode main loop.  `early` is the `EarlyChange` parameter:
after an entry is added, the width grows when `next + early` reaches
`1 << width`.  The fuel dominates the code count (each code is at least
9 bits). -/
def lzwDecodeLoop (early : Nat) :
    Nat → (Nat → Option (List Nat)) → Nat → Nat → Option (List Nat) →
    List Bool → Nat → List Nat → Option (List Nat)
  | 0, _, _, _, _, _, _, _ => none
  | fuel + 1, table, next, width, prev, bits, n, acc =>
    match readCode bits n width with
    | none => none
    | some (code, bits, n) =>
      if code = 256 then
        lzwDecodeLoop early fuel (fun _ => none) 258 9 none bits n acc
      else if code = 257 then some acc
      else
        match prev with
        | none =>
          match lzwTableStr table code with
          | none => none
          | some s => lzwDecodeLoop early fuel table next width (some s) bits n (acc ++ s)
        | some p =>
          match (if code = next then some (p ++ [p.headD 0]) else lzwTableStr table code) with
          | none => none
          | some s =>
            if next < 4096 then
              lzwDecodeLoop early fuel
                (fun i => if i = next then some (p ++ [s.headD 0]) else table i)
                (next + 1)
                (if next + 1 + early = 2 ^ width ∧ width < 12 then width + 1 else width)
                (some s) bits n (acc ++ s)
            else
              lzwDecodeLoop early fuel table next width (some s) bits n (acc ++ s)

/-- The PDF LZWDecode algorithm with EarlyChange parameter `early`. -/
def lzwDecode (early : Nat) (bs : List Nat) : Option (List Nat) :=
  lzwDecodeLoop early (bs.length + 2) (fun _ => none) 258 9 none
    (bytesToBits bs) (8 * bs.length) []

/-! ## `pdf_open`'s filename check -/

/-- `islower` in the C locale. -/
def islowerB (c : Nat) : Bool := 0x61 ≤ c ∧ c ≤ 0x7A

/-- `toupper` in the C locale. -/
def toupperB (c : Nat) : Nat := if 0x61 ≤ c ∧ c ≤ 0x7A then c - 32 else c

/-- `tolower` (only used to state what case-insensitive matching means). -/
def tolowerB (c : Nat) : Nat := if 0x41 ≤ c ∧ c ≤ 0x5A then c + 32 else c

/-- The extension comparison loop of `pdf_open`: walk the bytes `fn`
after the last dot against `ext = "pdf"`; when `islc` each byte must
equal the pattern byte, otherwise it must equal `toupper` of it; after
the loop the pattern must be exhausted (`if (*ext) fail`).  When the
pattern is exhausted first, the next byte is compared against the
terminating NUL (never equal), as in the source. -/
def extLoop (islc : Bool) : List Nat → List Nat → Bool
  | [], restExt => restExt.isEmpty
  | _ :: _, [] => false
  | c :: fnt, e :: et =>
    if islc then (if c = e then extLoop islc fnt et else false)
    else (if c = toupperB e then extLoop islc fnt et else false)

/-- The final extension: the part after the last `.` (meaningful only
when the name contains a dot). -/
def lastExt (fname : List Nat) : List Nat := (fname.splitOn 0x2E).getLastD []

/-- The filename gate of `pdf_open`: with no `.` in the name the check
is skipped entirely; otherwise the extension loop runs with `islc`
decided by the first byte after the dot.  `true` means `pdf_open`
proceeds to open the file; `false` means it returns NULL with
`errno = PDF_E_BAD_FILENAME`. -/
def pdf_open_name_ok (fname : List Nat) : Bool :=
  if fname.contains 0x2E then
    extLoop (islowerB ((lastExt fname).headD 0)) (lastExt fname) (String.bytes "pdf")
  else true

/-- What the claim asserts: the path ends in a `.pdf` extension matched
case-insensitively. -/
def endsPdfCI (fname : List Nat) : Bool :=
  4 ≤ fname.length ∧
    (fname.drop (fname.length - 4)).map tolowerB = String.bytes ".pdf"

/-! ## `pdf_set` of the font keys

The three cases `PDF_TEXT_FONT`, `PDF_LNO_FONT` and `PDF_LABEL_FONT` of
`pdfset` all execute the same statements: `font = &pdf->font;
r = checkfont (svalue);` and then, when the font is valid, store the
copied name through `font` — that is, into `pdf->font`, whichever of the
three keys was given. -/

/-- The base-14 font names (`validFonts`). -/
def validFonts : List (List Nat) :=
  [String.bytes "Courier", String.bytes "Courier-Bold",
   String.bytes "Courier-Oblique", String.bytes "Courier-BoldOblique",
   String.bytes "Times-Roman", String.bytes "Times-Bold",
   String.bytes "Times-Italic", String.bytes "Times-BoldItalic",
   String.bytes "Helvetica", String.bytes "Helvetica-Bold",
   String.bytes "HelveticaOblique", String.bytes "Helvetica-BoldOblique",
   String.bytes "Symbol", String.bytes "ZapfDingbats"]

/-- `checkfont`. -/
def checkfont (newfont : List Nat) : Nat :=
  if validFonts.contains newfont then PDF_OK else E_UNKNOWN_FONT

/-- The shared body that `pdf_set` executes for each of
`PDF_TEXT_FONT`, `PDF_LNO_FONT`, `PDF_LABEL_FONT`: reject when printing
is active; validate the name; store it into `pdf->font` (the text-font
field) in all three cases.  (`pdf_set` itself copies any non-OK result
into `pdf->errnum`.) -/
def pdfsetFontArm (s : PdfState) (svalue : List Nat) : PdfState × Nat :=
  if s.active then ({ s with errnum := E_ACTIVE }, E_ACTIVE)
  else if checkfont svalue = PDF_OK then ({ s with font := svalue }, PDF_OK)
  else ({ s with errnum := E_UNKNOWN_FONT }, E_UNKNOWN_FONT)

/-! ## Colors and the form painter (`setform`, `barform`, `circle`)

The image form (`imageform`, `formtype = PDF_JPEG`) reads and embeds an
external JPEG file and is outside the modelled scope; every theorem that
runs the form painter assumes `formtype ≠ PDF_JPEG`. -/

def RGB_BLACK : List Nat := String.bytes "0 0 0"
def RGB_WHITE : List Nat := String.bytes "1.000 1.000 1.000"
def RGB_HOLE_LINE : List Nat := String.bytes "0.85 0.85 0.85"
def RGB_HOLE_FILL : List Nat := String.bytes "0.90 0.90 0.90"

/-- One row of the `colors` table. -/
structure ColorsRow where
  line : List Nat
  bar : List Nat
  text : List Nat

/-- The `colors` table: PLAIN, GREENBAR, BLUEBAR, GRAYBAR, YELLOWBAR. -/
def colors : List ColorsRow :=
  [⟨RGB_BLACK, RGB_BLACK, RGB_BLACK⟩,
   ⟨String.bytes "0.780 0.860 0.780", String.bytes "0.880 0.960 0.880",
    String.bytes "0.780 0.860 0.780"⟩,
   ⟨String.bytes "0.794 0.900 0.900", String.bytes "0.804 1.000 1.000",
    String.bytes "0.794 0.900 0.900"⟩,
   ⟨String.bytes "0.700 0.700 0.700", String.bytes "0.800 0.800 0.800",
    String.bytes "0.700 0.700 0.700"⟩,
   ⟨String.bytes "0.900 0.900 0.800", String.bytes "1.000 1.000 0.600",
    String.bytes "0.700 0.700 0.700"⟩]

/-- `&colors[(formtype == PDF_JPEG) ? PDF_PLAIN : formtype]`. -/
def colorOf (formtype : Nat) : ColorsRow :=
  colors.getD (if formtype = PDF_JPEG then PDF_PLAIN else formtype)
    ⟨RGB_BLACK, RGB_BLACK, RGB_BLACK⟩

/-- Points per inch. -/
def PT : Nat := 72

/-- `xp(x)`: inches to page coordinates. -/
def xp (x : Frac) : Frac := x * Frac.ofNat PT

/-- `yp(y)` for sheet length `len`: inches from the top to page
coordinates. -/
def ypl (len y : Frac) : Frac := (len - y) * Frac.ofNat PT

/-- Floor of a fraction. -/
def ffloor (q : Frac) : Int := Int.fdiv q.num q.den

/-- `" %f"` for each value — how `wrstmf` lays out consecutive `%f`
conversions separated by single spaces. -/
def fmtFs (l : List Frac) : List Nat := l.flatMap fun q => 0x20 :: fmtF q

def CircleK : Frac := fr 551784 1000000

/-- `circle(pdf, x, y, r)`: four cubic Bezier quadrants. -/
def circleBytes (x y r : Frac) : List Nat :=
  let k := CircleK * r
  fmtFs [x - r, y] ++ String.bytes " m" ++
  fmtFs [x - r, y + k, x - k, y + r, x, y + r] ++ String.bytes " c" ++
  fmtFs [x + k, y + r, x + r, y + k, x + r, y] ++ String.bytes " c" ++
  fmtFs [x + r, y - k, x + k, y - r, x, y - r] ++ String.bytes " c" ++
  fmtFs [x - k, y - r, x - r, y - k, x - r, y] ++ String.bytes " c"

def HOLE_DIA : Frac := fr 1575 10000
def HOLE_VSP : Frac := fr 500 1000
def HOLE_HPOS : Frac := fr 236 1000
def HOLE_VOFS : Frac := fr 250 1000

/-- Iterations of the hole loop `for (p = 0.25; p <= len - 0.25;
p += 0.5)`: the values `p = 1/4 + k/2` with `k ≤ 2·len − 1`. -/
def holeRows (len : Frac) : Nat :=
  (ffloor (Frac.ofNat 2 * len - Frac.ofNat 1) + 1).toNat

/-- `barform(pdf)`: the colorbar form body appended to the form buffer. -/
def barformBytes (s : PdfState) : List Nat :=
  let tb := ypl s.len s.top
  let bb := ypl s.len (s.len - s.bot)
  let li := xp s.margin
  let ri := xp (s.wid - s.margin)
  let lnw := xp s.lno
  let lo := li - xp s.lno
  let ro := ri + xp s.lno
  let cbr := lnw / Frac.ofNat 2
  let k := CircleK * cbr
  let color := colorOf s.formtype
  let outline :=
    String.bytes "1 w " ++ color.line ++ String.bytes " RG " ++ RGB_WHITE ++
    String.bytes " rg" ++
    fmtFs [lo, tb - cbr] ++ String.bytes " m" ++
    fmtFs [lo, tb - cbr + k, lo + cbr - k, tb, lo + cbr, tb] ++ String.bytes " c" ++
    fmtFs [ri, tb] ++ String.bytes " l" ++
    fmtFs [ri + cbr + k, tb, ro, tb - cbr + k, ro, tb - cbr] ++ String.bytes " c" ++
    fmtFs [ro, bb + cbr] ++ String.bytes " l" ++
    fmtFs [ro, bb + cbr - k, ri + cbr + k, bb, ri + cbr, bb] ++ String.bytes " c" ++
    fmtFs [li, bb] ++ String.bytes " l" ++
    fmtFs [lo + cbr - k, bb, lo, bb + cbr - k, lo, bb + cbr] ++ String.bytes " c h"
  let inner :=
    if s.lno.num ≠ 0 then
      fmtFs [li, tb] ++ String.bytes " m" ++ fmtFs [li, bb] ++ String.bytes " l" ++
      fmtFs [ri, bb] ++ String.bytes " m" ++ fmtFs [ri, tb] ++ String.bytes " l"
    else []
  let bars := (ctrunc ((s.len - (s.top + s.bot)) / s.barh + fr 1 2)).toNat
  let barRects := (List.range bars).flatMap fun b =>
    if b % 2 = 0 then
      let bart := tb - Frac.ofNat b * (s.barh * Frac.ofNat PT)
      let barb := bart - s.barh * Frac.ofNat PT
      fmtFs [li, barb, ri - li, bart - barb] ++ String.bytes " re"
    else []
  outline ++ inner ++ String.bytes " B " ++ color.bar ++ String.bytes " rg " ++
    color.line ++ String.bytes " RG" ++ barRects ++ String.bytes " B"

/-- The number of line-number labels: `l = 1` while `l <= x` for the
real bound `x`. -/
def labelCount (x : Frac) : Nat := (ffloor x).toNat

/-- `setform(pdf)`: build the per-page background into `formbuf`
(tractor holes, the colorbar body for bar forms, line-number rulers).
The `formtype = PDF_JPEG` branch (`imageform`) is outside the modelled
scope and contributes nothing here. -/
def setform (s : PdfState) : PdfState :=
  let tb := ypl s.len s.top
  let li := xp s.margin
  let ri := xp (s.wid - s.margin)
  let lo := li - xp s.lno
  let color := colorOf s.formtype
  let buf :=
    String.bytes " q 1 w " ++ RGB_HOLE_FILL ++ String.bytes " rg " ++
    RGB_HOLE_LINE ++ String.bytes " RG" ++
    ((List.range (holeRows s.len)).flatMap fun kk =>
      let p := HOLE_VOFS + Frac.ofNat kk * HOLE_VSP
      circleBytes (xp HOLE_HPOS) (ypl s.len p) (xp (HOLE_DIA / Frac.ofNat 2)) ++
      circleBytes (xp (s.wid - HOLE_HPOS)) (ypl s.len p) (xp (HOLE_DIA / Frac.ofNat 2))) ++
    String.bytes " B Q"
  let buf :=
    if s.formtype ≠ PDF_PLAIN then
      buf ++ String.bytes " q " ++
        (if s.formtype = PDF_JPEG then [] else barformBytes s) ++
        String.bytes " Q"
    else buf
  let buf :=
    if s.lno.num ≠ 0 then
      buf ++
      String.bytes " q 1 w BT 0 Tr " ++ color.text ++
      String.bytes " rg /F3 " ++ fmtNat (PT / 6) ++
      String.bytes " Tf 55 Tz 1 0 0 1" ++
      fmtFs [lo, tb + Frac.ofNat (PT / 6)] ++
      String.bytes " Tm " ++ fmtNat (PT / 6) ++ String.bytes " TL (6)" ++ [0x27] ++
      String.bytes " /F2 " ++ fmtNat (PT / 6) ++ String.bytes " Tf" ++
      ((List.range (labelCount ((s.len - (s.top + s.bot)) * Frac.ofNat 6))).flatMap
        fun l =>
          String.bytes " (" ++ fmtNatPad 2 0x20 (l + 1) ++ [0x29, 0x27]) ++
      String.bytes " /F3 " ++ fmtNat (PT / 8) ++
      String.bytes " Tf 1 0 0 1" ++
      fmtFs [ri, tb + Frac.ofNat (PT / 8)] ++
      String.bytes " Tm 65 Tz " ++ fmtNat (PT / 8) ++
      String.bytes " TL (8)" ++ [0x27] ++
      String.bytes " /F2 " ++ fmtNat (PT / 8) ++ String.bytes " Tf" ++
      ((List.range (labelCount ((s.len - (s.top + s.bot)) * Frac.ofNat 8))).flatMap
        fun l =>
          String.bytes " (" ++ fmtNatPad 2 0x20 (l + 1) ++ [0x29, 0x27]) ++
      String.bytes " ET Q"
    else buf
  { s with formbuf := buf }

/-! ## Line buffer and page writer (`add2line`, `wrpage`) -/

/-- `add2line(pdf, text, textlen)`: grow the line table to `line`
entries (new entries unallocated), then append `text` to line
`line - 1`, allocating it if needed.  (`line = 0` is a BUGCHECK in the
source; every caller establishes `line ≥ 1`.) -/
def add2line (s : PdfState) (text : List Nat) : PdfState :=
  let lines :=
    if s.lines.length < s.line then
      s.lines ++ List.replicate (s.line - s.lines.length) none
    else s.lines
  let cur := (lines.getD (s.line - 1) none).getD []
  { s with lines := lines.set (s.line - 1) (some (cur ++ text)) }

/-- The per-column loop of `wrpage`'s text renderer: emit `" T* ("`
before the first emitted character, escape `\\ ( )`, handle a `CR`
marker by restarting at column 0 when printable data follows, append
ordinary characters; returns the bytes and whether a string is open. -/
def renderColsGo : Bool → List Nat → List Nat × Bool
  | online, [] => ([], online)
  | online, c :: rest =>
    let openPart := if online then [] else String.bytes " T* ("
    if c = 0x5C ∨ c = 0x28 ∨ c = 0x29 then
      let pr := renderColsGo true rest
      (openPart ++ [0x5C, c % 256] ++ pr.1, pr.2)
    else if c = 0x0D then
      let over :=
        if rest.any (fun p => ¬(p = 0x0D ∨ p = 0x20)) then
          String.bytes ")Tj 0 0 Td ("
        else []
      let pr := renderColsGo true rest
      (openPart ++ over ++ pr.1, pr.2)
    else
      let pr := renderColsGo true rest
      (openPart ++ [c % 256] ++ pr.1, pr.2)

/-- Render one stored line: an unallocated line is a bare `" T*"`;
otherwise run the column loop and close with `")Tj"` when a string is
open (an allocated empty line also yields `" T*"`). -/
def renderLine (entry : Option (List Nat)) : List Nat :=
  match entry with
  | none => String.bytes " T*"
  | some data =>
    let pr := renderColsGo false data
    if pr.2 then pr.1 ++ String.bytes ")Tj" else pr.1 ++ String.bytes " T*"

/-- After rendering, `wrpage` sets `linelen[l] = 0` for each rendered
allocated line (the first `n` entries). -/
def clearRendered : List (Option (List Nat)) → Nat → List (Option (List Nat))
  | ls, 0 => ls
  | [], _ + 1 => []
  | none :: t, n + 1 => none :: clearRendered t n
  | some _ :: t, n + 1 => some [] :: clearRendered t n

/-- The TOF-overflow carry loop of `wrpage`: swap lines
`lpp .. lpp+tof-1` into `0 .. tof-1` of the new page; a nonempty
carried line sets `line = tof + 1`. -/
def tofSwapGo : PdfState → Nat → Nat → PdfState
  | s, _, 0 => s
  | s, l, rem + 1 =>
    if s.lines.length ≤ s.lpp + l then s
    else
      match s.lines.getD (s.lpp + l) none with
      | none => tofSwapGo s (l + 1) rem
      | some dataEl =>
        let oldL := s.lines.getD l none
        let lines := (s.lines.set l (some dataEl)).set (s.lpp + l) oldL
        let s := { s with lines := lines }
        let s := if dataEl ≠ [] then { s with line := s.tof + 1 } else s
        tofSwapGo s (l + 1) rem

/-- `if (pdf->tof < pdf->nlines)` guard around the carry loop. -/
def tofSwap (s : PdfState) : PdfState :=
  if s.tof < s.lines.length then tofSwapGo s 0 s.tof else s

/-- `encstm(pdf, stream, len)`: LZW-encode into `lzwbuf`; nonzero
(here `true`) when the compression failed to shrink the data. -/
def encstm (s : PdfState) : PdfState × Bool :=
  let s := { s with lzwbuf := lzw_encode s.pagebuf }
  (s, blen s.pagebuf ≤ blen s.lzwbuf)

/-- The uncompressed content-stream object header
(`"%u 0 obj\n<< /Length %u >>\nstream\n"`). -/
def rawStrmHdr (obj rawLen : Nat) : List Nat :=
  fmtNat obj ++ String.bytes " 0 obj\n<< /Length " ++ fmtNat rawLen ++
  String.bytes " >>\nstream\n"

/-- The LZW content-stream object header (`"%u 0 obj\n  << /Length %u
/DL %u /Filter /LZWDecode /DecodeParams << /EarlyChange 0 >> >>\nstream\n"`). -/
def lzwStrmHdr (obj encLen rawLen : Nat) : List Nat :=
  fmtNat obj ++ String.bytes " 0 obj\n  << /Length " ++ fmtNat encLen ++
  String.bytes " /DL " ++ fmtNat rawLen ++
  String.bytes " /Filter /LZWDecode /DecodeParams << /EarlyChange 0 >> >>\nstream\n"

/-- The tail of `wrpage`: choose the stream encoding and write the
content-stream object.  The raw `pagebuf` is written when compression
is disabled (`PDF_UNCOMPRESSED`) or `encstm` reports that the encoding
failed to shrink the data; otherwise the LZW-encoded `lzwbuf` is
written with `/Filter /LZWDecode`. -/
def wrstream (s : PdfState) (obj : Nat) : PdfState :=
  if s.uncompressed then
    let s := wrf s (rawStrmHdr obj (blen s.pagebuf))
    let s := wrf s s.pagebuf
    wrf s (String.bytes "\nendstream\nendobj\n\n")
  else
    let se := encstm s
    let s := se.1
    if se.2 then
      let s := wrf s (rawStrmHdr obj (blen s.pagebuf))
      let s := wrf s s.pagebuf
      wrf s (String.bytes "\nendstream\nendobj\n\n")
    else
      let s := wrf s (lzwStrmHdr obj (blen s.lzwbuf) (blen s.pagebuf))
      let s := wrf s s.lzwbuf
      wrf s (String.bytes "\nendstream\nendobj\n\n")

/-- `wrpage(pdf)`: render the current page into `pagebuf` (form
background, then the text object), bump the page number, carry
TOF-overflow lines, then write the content-stream object to the file —
LZW-compressed when compression is allowed and strictly shrinks the
data, raw otherwise. -/
def wrpage (s : PdfState) : PdfState :=
  let lm := xp s.margin +
    xp (((s.wid - s.margin * Frac.ofNat 2) - Frac.ofNat s.cols / s.cpi) / Frac.ofNat 2)
  let s := { s with pagebuf := [] }
  let s := if s.lpp < s.line then { s with line := s.lpp } else s
  let so := addobj s
  let s := so.1
  let obj := so.2
  let pb := s.formbuf ++
    String.bytes " q 0 Tr " ++ RGB_BLACK ++ String.bytes " rg BT /F1 " ++
    fmtNat (PT / s.lpi) ++ String.bytes " Tf 1 0 0 1" ++
    fmtFs [lm, fr 0 1] ++ String.bytes " Tm  " ++
    fmtNat (PT / s.lpi) ++ String.bytes " TL " ++ fmtNat 0 ++
    String.bytes " Tc " ++ fmtNat 100 ++ String.bytes " Tz " ++
    fmtNat 0 ++ String.bytes " " ++
    fmtNat (ctrunc (s.len * Frac.ofNat PT + Frac.ofNat 2)).toNat ++
    String.bytes " Td"
  let cnt := min s.line s.lines.length
  let pb := pb ++ (List.range cnt).flatMap (fun l => renderLine (s.lines.getD l none))
  let pb := pb ++ String.bytes " ET Q"
  let s := { s with pagebuf := pb, lines := clearRendered s.lines cnt
                    page := s.page + 1, line := 0 }
  let s := tofSwap s
  wrstream s obj

/-! ## Header writing and session setup (`getint`, `wrhdr`, `pdfinit`) -/

/-- `strstr`: index of the first occurrence of `needle`. -/
def findSubGo (needle : List Nat) : List Nat → Nat → Option Nat
  | [], i => if needle.isEmpty then some i else none
  | a :: t, i =>
    if needle.isPrefixOf (a :: t) then some i else findSubGo needle t (i + 1)

/-- `isspace` in the C locale. -/
def isspaceB (c : Nat) : Bool := c = 0x20 ∨ (0x09 ≤ c ∧ c ≤ 0x0D)

/-- Skip whitespace, returning the index after it. -/
def skipWsGo : List Nat → Nat → Nat
  | [], i => i
  | c :: t, i => if isspaceB c then skipWsGo t (i + 1) else i

/-- Parse a decimal digit run, returning the value and the index after
it. -/
def parseDigitsGo : List Nat → Nat → Nat → Nat × Nat
  | [], i, acc => (acc, i)
  | c :: t, i, acc =>
    if 0x30 ≤ c ∧ c ≤ 0x39 then parseDigitsGo t (i + 1) (acc * 10 + (c - 0x30))
    else (acc, i)

/-- `strtoul(p, &q, 10)`: skip whitespace, parse digits; when no digits
convert, the end pointer is the original `p`. -/
def strtoul10 (buf : List Nat) (i : Nat) : Nat × Nat :=
  let j := skipWsGo (buf.drop i) i
  let ve := parseDigitsGo (buf.drop j) j 0
  if ve.2 = j then (0, i) else ve

/-- `getint(pdf, buf, name, &end)`: find `name`, `strtoul` after it,
require the terminator to be `\n`, space, or `]`. -/
def getint (buf name : List Nat) : Except Nat (Nat × Nat) :=
  match findSubGo name buf 0 with
  | none => Except.error E_NO_APPEND
  | some idx =>
    let nq := strtoul10 buf (idx + blen name)
    if buf.getD nq.2 0 = 0x0A ∨ buf.getD nq.2 0 = 0x20 ∨ buf.getD nq.2 0 = 0x5D then
      Except.ok nq
    else Except.error E_NO_APPEND

/-- `"%PDF-1.4\n"` and the four-byte binary comment line. -/
def headerBytes : List Nat :=
  String.bytes "%PDF-1.4\n%" ++ [0xC2, 0xA5, 0xC2, 0xB1, 0xC3, 0xAB, 0x0A]

/-- `wrhdr(pdf)`: for a new file, write the header on the very first
output (after a checkpoint resume, `checkpp ≠ 0` and the header is not
rewritten; the file is already positioned); for an update session,
re-validate `/Count` against `prevpc`, overwrite the previous anchor
object with a `/Parent`-carrying copy, record the ten-digit patch slot
position in `anchorpp`, and reposition to `checkpp` when resuming. -/
def wrhdr (s : PdfState) : Except (PdfState × Nat) PdfState :=
  if ¬s.updating then
    let s := if s.checkpp = 0 then wrf s headerBytes else s
    Except.ok { s with written := true }
  else
    match getint s.trail (String.bytes "/Count") with
    | Except.error e => Except.error (s, e)
    | Except.ok (cnt, q) =>
      if s.prevpc ≠ cnt then Except.error (s, E_INCON_GEO)
      else
        let s := { s with written := true }
        let s := fseekTo s s.anchorp
        let s := wrf s (fmtNat s.aobj ++ String.bytes " 0 obj\n" ++
          s.trail.take q ++ String.bytes " /Parent ")
        let s := { s with anchorpp := s.fpos }
        let s := wrf s (String.bytes "           0 R " ++ s.trail.drop q ++
          String.bytes "\nendobj\n\n")
        let s := if s.checkpp ≠ 0 then fseekTo s s.checkpp else s
        Except.ok s

/-- `pdfinit(pdf)`: reset the document hash and prepare the file.
`checkupdate`'s parsing of an existing file (append to a non-empty
file) is outside the modelled scope: theorems about sessions start
either from an empty file or from an already-initialized context. -/
def pdfinit (s : PdfState) : Except (PdfState × Nat) PdfState :=
  let s := { s with sha1bytes := [] }
  if s.frequire = PDF_FILE_APPEND then
    if s.file.isEmpty then Except.ok { s with pbase := 1 }
    else Except.error (s, E_NO_APPEND)
  else
    if s.file.isEmpty then Except.ok { s with pbase := 1 }
    else if s.frequire = PDF_FILE_NEW then Except.error (s, E_NOT_EMPTY)
    else Except.ok { s with file := [], fpos := 0, pbase := 1 }

/-! ## `pdf_print` -/

/-- `if (!pdf->line) pdf->line = pdf->tof + 1;` — start a line below
the top-of-form offset. -/
def promoteLine (s : PdfState) : PdfState :=
  if s.line = 0 then { s with line := s.tof + 1 } else s

/-- `pdf->line++`. -/
def bumpLine (s : PdfState) : PdfState := { s with line := s.line + 1 }

/-- One canonical character of `pdf_print`'s pagination loop. -/
def dataStep (s : PdfState) (c : Nat) : PdfState :=
  if c = 0x0C then
    wrpage (promoteLine s)
  else
    let s := if s.lpp + s.tof < s.line then wrpage s else s
    if c = 0x0A then
      bumpLine (promoteLine s)
    else
      add2line (promoteLine s) [c]

/-- The common tail of `pdf_print`: bail out on a pending error, return
OK with no data, otherwise run the pagination loop. -/
def printTail (s : PdfState) (parsed : List Nat) : PdfState × Nat :=
  if s.errnum ≠ 0 then (s, s.errnum)
  else if parsed.isEmpty then (s, PDF_OK)
  else
    let s := parsed.foldl dataStep s
    (s, s.errnum)

/-- The head of `pdf_print`'s first-write path: compute `lpp` from the
configured length, and apply the default top-of-form offset when `tof`
was never set. -/
def geoPrep (s0 : PdfState) : PdfState :=
  let s := { s0 with lpp := (ctrunc (s0.len * Frac.ofNat s0.lpi)).toNat }
  if s.tof = TOF_UNSET then
    { s with tof := (ctrunc (s.top * Frac.ofNat s.lpi)).toNat }
  else s

/-- The six geometry checks of `pdf_print`, exactly as coded (note the
`(int)` truncations): true when some check rejects the configuration. -/
def geoRejects (s0 : PdfState) : Prop :=
  ctrunc (geoPrep s0).len < 2 ∨
  ctrunc ((geoPrep s0).wid - Frac.ofNat 2 * ((geoPrep s0).margin + (geoPrep s0).lno)) < 3 ∨
  ctrunc ((geoPrep s0).wid - Frac.ofNat 2 * ((geoPrep s0).margin + (geoPrep s0).lno)) <
    ctrunc (Frac.ofNat (geoPrep s0).cols / (geoPrep s0).cpi) ∨
  Frac.ltb ((geoPrep s0).len * Frac.ofNat (geoPrep s0).lpi) (Frac.ofNat 4) = true ∨
  Frac.ltb ((geoPrep s0).len * Frac.ofNat (geoPrep s0).lpi) (Frac.ofNat (geoPrep s0).tof) = true ∨
  ((geoPrep s0).formtype ≠ PDF_JPEG ∧
   Frac.ltb (geoPrep s0).barh (Frac.ofNat 1 / Frac.ofNat (geoPrep s0).lpi) = true)

/-- The body of `pdf_print`'s first write after the geometry is
validated and the session is initialized: parse (with the
initial-discard enabled unless resuming), return early when nothing was
stored or stripped, otherwise write the header and form and paginate. -/
def printBody (s0 : PdfState) (input : List Nat) : PdfState × Nat :=
  let s := { s0 with esc := { s0.esc with parsebuf := [] } }
  let sr := parsestr s input (!s.resumed)
  let s := sr.1
  let r := sr.2
  let parsed := s.esc.parsebuf
  let s := { s with esc := { s.esc with parsebuf := [] }, resumed := false }
  if parsed.isEmpty ∧ r = 0 then (s, PDF_OK)
  else
    match wrhdr s with
    | Except.error se => ({ se.1 with errnum := se.2 }, se.2)
    | Except.ok s =>
      let s := if s.formbuf.isEmpty then setform s else s
      printTail s parsed

/-- `pdf_print(pdf, string, length)`.  On the first write: compute
`lpp` and the default `tof`, validate the geometry (`INCON_GEO`
aborts), lock the configuration, initialize the session, parse with the
initial-discard enabled unless resuming, and write the header and form
before paginating.  Afterwards: parse and paginate. -/
def pdf_print (s0 : PdfState) (input : List Nat) : PdfState × Nat :=
  if ¬s0.written then
    let s := geoPrep s0
    if ctrunc s.len < 2 then ({ s with errnum := E_INCON_GEO }, E_INCON_GEO)
    else if ctrunc (s.wid - Frac.ofNat 2 * (s.margin + s.lno)) < 3 then
      ({ s with errnum := E_INCON_GEO }, E_INCON_GEO)
    else if ctrunc (s.wid - Frac.ofNat 2 * (s.margin + s.lno)) <
        ctrunc (Frac.ofNat s.cols / s.cpi) then
      ({ s with errnum := E_INCON_GEO }, E_INCON_GEO)
    else if Frac.ltb (s.len * Frac.ofNat s.lpi) (Frac.ofNat 4) then
      ({ s with errnum := E_INCON_GEO }, E_INCON_GEO)
    else if Frac.ltb (s.len * Frac.ofNat s.lpi) (Frac.ofNat s.tof) then
      ({ s with errnum := E_INCON_GEO }, E_INCON_GEO)
    else if s.formtype ≠ PDF_JPEG ∧ Frac.ltb s.barh (Frac.ofNat 1 / Frac.ofNat s.lpi) then
      ({ s with errnum := E_INCON_GEO }, E_INCON_GEO)
    else
      let s := { s with active := true }
      match (if s.inited then Except.ok s
             else (pdfinit s).map fun s => { s with inited := true }) with
      | Except.error se => ({ se.1 with errnum := se.2 }, se.2)
      | Except.ok s => printBody s input
  else
    let s := { s0 with esc := { s0.esc with parsebuf := [] } }
    let sr := parsestr s input false
    let s := sr.1
    let parsed := s.esc.parsebuf
    let s := { s with esc := { s.esc with parsebuf := [] } }
    printTail s parsed

/-! ## SHA-1 (FIPS 180-1, as embedded in lpt2pdf.c)

The running `SHA1Context` is represented by the list of bytes fed so
far (`sha1bytes`); `SHA1Result` is the pure digest of that list. -/

def M32 : Nat := 4294967296

def rotl32 (n b : Nat) : Nat := ((b <<< n) % M32) ||| (b >>> (32 - n))

def sha1F (t b c d : Nat) : Nat :=
  if t < 20 then (b &&& c) ||| ((b ^^^ 0xFFFFFFFF) &&& d)
  else if t < 40 then b ^^^ c ^^^ d
  else if t < 60 then (b &&& c) ||| (b &&& d) ||| (c &&& d)
  else b ^^^ c ^^^ d

def sha1K (t : Nat) : Nat :=
  if t < 20 then 0x5A827999
  else if t < 40 then 0x6ED9EBA1
  else if t < 60 then 0x8F1BBCDC
  else 0xCA62C1D6

structure Sha1Hs where
  a : Nat
  b : Nat
  c : Nat
  d : Nat
  e : Nat
  deriving DecidableEq

def sha1Round (w : Nat → Nat) (st : Sha1Hs) (t : Nat) : Sha1Hs :=
  { a := (rotl32 5 st.a + sha1F t st.b st.c st.d + st.e + w t + sha1K t) % M32
    b := st.a
    c := rotl32 30 st.b
    d := st.c
    e := st.d }

def sha1W16 (block : List Nat) : List Nat :=
  (List.range 16).map fun i =>
    (block.getD (4 * i) 0 <<< 24) ||| (block.getD (4 * i + 1) 0 <<< 16) |||
    (block.getD (4 * i + 2) 0 <<< 8) ||| block.getD (4 * i + 3) 0

def sha1Ws (block : List Nat) : List Nat :=
  (List.range 64).foldl
    (fun w _ =>
      w ++ [rotl32 1 ((w.getD (w.length - 3) 0) ^^^ (w.getD (w.length - 8) 0) ^^^
                      (w.getD (w.length - 14) 0) ^^^ (w.getD (w.length - 16) 0))])
    (sha1W16 block)

def sha1ProcessBlock (h : Sha1Hs) (block : List Nat) : Sha1Hs :=
  let w := sha1Ws block
  let st := (List.range 80).foldl (sha1Round fun t => w.getD t 0) h
  { a := (h.a + st.a) % M32, b := (h.b + st.b) % M32, c := (h.c + st.c) % M32
    d := (h.d + st.d) % M32, e := (h.e + st.e) % M32 }

/-- `k` bytes of `n`, big-endian. -/
def beBytes (k n : Nat) : List Nat :=
  (List.range k).map fun i => (n >>> (8 * (k - 1 - i))) &&& 0xFF

def sha1Blocks (h : Sha1Hs) : Nat → List Nat → Sha1Hs
  | 0, _ => h
  | _ + 1, [] => h
  | fuel + 1, a :: t =>
    sha1Blocks (sha1ProcessBlock h ((a :: t).take 64)) fuel ((a :: t).drop 64)

/-- The SHA-1 digest (20 bytes) of a byte string. -/
def sha1 (msg : List Nat) : List Nat :=
  let padded := msg ++ 0x80 ::
    (List.replicate ((64 + 56 - ((blen msg + 1) % 64)) % 64) 0 ++
     beBytes 8 (8 * blen msg))
  let h := sha1Blocks ⟨0x67452301, 0xEFCDAB89, 0x98BADCFE, 0x10325476, 0xC3D2E1F0⟩
    (blen msg / 64 + 2) padded
  beBytes 4 h.a ++ beBytes 4 h.b ++ beBytes 4 h.c ++ beBytes 4 h.d ++ beBytes 4 h.e

def hexU (n : Nat) : Nat := if n < 10 then 0x30 + n else 0x41 + (n - 10)

/-- The uppercase-hex document id (`sprintf (id+(l*2), "%02X", ...)`). -/
def sha1hex (msg : List Nat) : List Nat :=
  (sha1 msg).flatMap fun b => [hexU (b / 16), hexU (b % 16)]

/-! ## Session close and checkpoint (`pdfclose`, `pdf_checkpoint`) -/

/-- Close stage: the session `/Pages` list (`plist = addobj(pdf)`,
`anchor = plist + 1 + 1 + page`); returns `plist`. -/
def closeKids (s0 : PdfState) : PdfState × Nat :=
  let sp := addobj s0
  let s := sp.1
  let plist := sp.2
  let anchor := plist + 1 + 1 + s.page
  (wrf s (fmtNat plist ++ String.bytes " 0 obj\n << /Type /Pages /Kids [" ++
    ((List.range s.page).flatMap fun p =>
      String.bytes " " ++ fmtNat (plist + 1 + 1 + p) ++ String.bytes " 0 R") ++
    String.bytes "] /Count " ++ fmtNat s.page ++ String.bytes " /Parent " ++
    fmtNatPad 10 0x30 anchor ++ String.bytes " 0 R >>\nendobj\n\n"), plist)

/-- Close stage: the font directory object (always `plist + 1`). -/
def closeFonts (s0 : PdfState) (plist : Nat) : PdfState :=
  let s := (addobj s0).1
  wrf s (fmtNat (plist + 1) ++
    String.bytes " 0 obj\n << /F1 << /Type /Font /Subtype /Type1 /BaseFont /" ++
    s.font ++ String.bytes " >> /F2 << /Type /Font /Subtype /Type1 /BaseFont /" ++
    s.nfont ++ String.bytes " >> /F3 << /Type /Font /Subtype /Type1 /BaseFont /" ++
    s.nbold ++ String.bytes " >> >>\nendobj\n\n")

/-- Close stage: one page leaf object. -/
def closeLeaf (plist : Nat) (s0 : PdfState) (p : Nat) : PdfState :=
  let so := addobj s0
  let s := so.1
  wrf s (fmtNat so.2 ++ String.bytes " 0 obj\n << /Type /Page /Parent " ++
    fmtNat plist ++ String.bytes " 0 R /Resources << /Font " ++
    fmtNat (plist + 1) ++
    String.bytes " 0 R /ProcSet [/PDF /Text /ImageC /ImageI /ImageB]" ++
    (if s.formobj ≠ 0 then
      String.bytes " /XObject << /form " ++ fmtNat s.formobj ++
      String.bytes " 0 R >>"
    else []) ++
    String.bytes " >> /MediaBox [0 0" ++
    fmtFs [s.wid * Frac.ofNat PT, s.len * Frac.ofNat PT] ++
    String.bytes "] /Contents " ++ fmtNat (s.pbase + p) ++
    String.bytes " 0 R >>\nendobj\n\n")

/-- Close stage: the anchor `/Pages` object linking the previous
session when present; returns the anchor object number. -/
def closeAnchor (s0 : PdfState) (plist : Nat) : PdfState × Nat :=
  let sa := addobj s0
  let s := sa.1
  let aobjL := sa.2
  (wrf s (fmtNat aobjL ++ String.bytes " 0 obj\n << /Type /Pages /Kids [" ++
    (if s.aobj ≠ 0 then fmtNat s.aobj ++ String.bytes " 0 R " else []) ++
    fmtNat plist ++ String.bytes " 0 R] /Count " ++ fmtNat (s.page + s.prevpc) ++
    String.bytes " >>\nendobj\n\n"), aobjL)

/-- Close stage: the catalog; returns the catalog object number. -/
def closeCatalog (s0 : PdfState) (aobjL : Nat) : PdfState × Nat :=
  let sc := addobj s0
  let s := sc.1
  let cat := sc.2
  (wrf s (fmtNat cat ++
    String.bytes " 0 obj\n  << /Type /Catalog /Pages " ++ fmtNat aobjL ++
    String.bytes " 0 R /PageLayout /SinglePage /ViewerPreferences << " ++
    (if Frac.ltb s.len s.wid then String.bytes " /Duplex /DuplexFlipLongEdge"
     else String.bytes " /Duplex /DuplexFlipShortEdge") ++
    (if s.title ≠ defaults.title then String.bytes " /DisplayDocTitle true"
     else []) ++
    String.bytes " /PickTrayByPDFSize true >> >>\nendobj\n\n"), cat)

/-- Close stage: the `/Info` object — also hashed into the document id;
returns the info object number. -/
def closeInfo (s0 : PdfState) (now : List Nat) : PdfState × Nat :=
  let si := addobj s0
  let s := si.1
  let io := si.2
  let ibuf := fmtNat io ++ String.bytes " 0 obj\n  << /Title (" ++ s.title ++
    String.bytes ") /Creator (Midnight Engineering)" ++
    String.bytes " /Subject (Preserving the history of computing)" ++
    String.bytes " /Producer (LPTPDF Version 1.0)" ++
    String.bytes " /CreationDate (D:" ++ (if s.updating then s.ctime else now) ++
    String.bytes ") /ModDate (D:" ++ now ++ String.bytes ") >>\nendobj\n\n"
  let s := { s with sha1bytes := s.sha1bytes ++ ibuf }
  (wrf s ibuf, io)

/-- Close stage: the xref table; returns its file position for
`startxref`. -/
def closeXref (s0 : PdfState) : PdfState × Nat :=
  let xrefpos := s0.fpos
  (wrf s0 (String.bytes "xref\n0 " ++ fmtNat (1 + s0.obj) ++
    String.bytes "\n" ++ fmtNatPad 10 0x30 0 ++ String.bytes " " ++
    fmtNatPad 5 0x30 65535 ++ String.bytes " f \n" ++
    ((List.range s0.obj).flatMap fun p =>
      fmtNatPad 10 0x30 (s0.xref p) ++ String.bytes " " ++
      fmtNatPad 5 0x30 0 ++ String.bytes " n \n")), xrefpos)

/-- Close stage: the trailer with the SHA-1 document id. -/
def closeTrailer (s : PdfState) (cat io xrefpos : Nat) : PdfState :=
  let id := sha1hex s.sha1bytes
  wrf s (String.bytes "trailer\n << /Root " ++ fmtNat cat ++
    String.bytes " 0 R /Size " ++ fmtNat (s.obj + 1) ++
    String.bytes " /Info " ++ fmtNat io ++ String.bytes " 0 R /ID [<" ++
    (if s.oid ≠ [] then s.oid else id) ++ String.bytes "> <" ++ id ++
    String.bytes ">] >>\nstartxref\n" ++ fmtNat xrefpos ++
    String.bytes "\n%%EOF\n")

/-- The body of `pdfclose` once the headers are known to be written:
flush a partial page, then write the session `/Pages` list, the font
dictionary, the page leaves, the anchor `/Pages`, the catalog, the
`/Info` object (hashed into the document id), the xref, and the
trailer; truncate at the end of the trailer; finally patch the previous
session's ten-digit `/Parent` slot when updating.  `now` is the
`strftime`-formatted local time. -/
def pdfcloseMain (s : PdfState) (now : List Nat) : PdfState × Nat :=
  if ¬s.written then (s, PDF_OK)
  else
    let s := if s.line ≠ 0 then wrpage s else s
    let kp := closeKids s
    let s := kp.1
    let plist := kp.2
    let s := closeFonts s plist
    let s := (List.range s.page).foldl (closeLeaf plist) s
    let sa := closeAnchor s plist
    let s := sa.1
    let aobjL := sa.2
    let sc := closeCatalog s aobjL
    let s := sc.1
    let cat := sc.2
    let si := closeInfo s now
    let s := si.1
    let io := si.2
    let sx := closeXref s
    let s := sx.1
    let xrefpos := sx.2
    let s := closeTrailer s cat io xrefpos
    let s := ftruncateHere s
    let s :=
      if s.anchorpp ≠ 0 then wrf (fseekTo s s.anchorpp) (fmtNatPad 10 0x30 aobjL)
      else s
    (s, PDF_OK)

/-- `pdfclose(pdf, checkpoint)`: when a checkpoint left a partial page
with unwritten headers, write the headers (and the form) first, then
run the close body.  (An abort leaves the context's `errnum` untouched
and returns the code, as the `setjmp` handler does.) -/
def pdfclose (s : PdfState) (now : List Nat) : PdfState × Nat :=
  if s.line ≠ 0 ∧ ¬s.written ∧ s.inited then
    match wrhdr s with
    | Except.error se => se
    | Except.ok s => pdfcloseMain (if s.formbuf.isEmpty then setform s else s) now
  else pdfcloseMain s now

/-- `pdf_checkpoint(pdf)`: when something has been written, save the
line number, the object count, the file position (`checkpp`) and the
running hash; run the close body; then restore them, seek back, clear
`PDF_WRITTEN` and set `PDF_RESUMED`. -/
def pdf_checkpoint (s : PdfState) (now : List Nat) : PdfState × Nat :=
  if s.written then
    let line := s.line
    let obj := s.obj
    let sha := s.sha1bytes
    let s := { s with line := 0, checkpp := s.fpos }
    let sr := pdfclose s now
    let s := sr.1
    let r := sr.2
    let s := { s with sha1bytes := sha, fpos := s.checkpp, obj := obj, line := line
                      written := false, resumed := true }
    if r ≠ PDF_OK then ({ s with errnum := r }, r) else (s, r)
  else (s, PDF_OK)

/-- `pdf_close(pdf)`. -/
def pdf_close (s : PdfState) (now : List Nat) : PdfState × Nat := pdfclose s now

/-! ## Whole-session runners -/

/-- `print S1; checkpoint; print S2; close` — the file that remains. -/
def runCkpt (s : PdfState) (S1 S2 nowCk now : List Nat) : List Nat :=
  ((pdf_close ((pdf_print ((pdf_checkpoint (pdf_print s S1).1 nowCk).1) S2).1) now).1).file

/-- `print S1; print S2; close` — the file that remains. -/
def runPlain (s : PdfState) (S1 S2 now : List Nat) : List Nat :=
  ((pdf_close ((pdf_print ((pdf_print s S1).1) S2).1) now).1).file

/-- `print S; close` — the file that remains. -/
def runOnce (s : PdfState) (S now : List Nat) : List Nat :=
  ((pdf_close ((pdf_print s S).1) now).1).file

/-! ## Concrete configurations used in the evaluations -/

/-- A small, uncompressed, plain-form configuration (every field here is
reachable through `pdf_set`): 4 in wide, 2 in long, 10 columns, no line
numbers. -/
def tinyCfg : PdfState := { defaults with
  formtype := PDF_PLAIN, lno := fr 0 1, len := fr 2 1, wid := fr 4 1,
  margin := fr 350 1000, cols := 10, uncompressed := true }

/-- A configuration whose real-valued printable width is too small for
the column count (`wid − 2·(margin+lno) = 3.3 < cols/cpi = 3.9`) but
which the truncated comparison `(int)3.3 < (int)3.9` does not reject. -/
def badGeo : PdfState := { defaults with
  wid := fr 4 1, margin := fr 350 1000, lno := fr 0 1, cols := 39 }

/-- A fixed `strftime`-style clock value for concrete runs. -/
def nowT : List Nat := String.bytes "20260101000000"

/-! ## Predicates used to relate a checkpointed run to a plain run -/

/-- All six geometry checks of `pdf_print` accept the (already
prepared) state `u`. -/
def GeoOK (u : PdfState) : Prop :=
  ¬ctrunc u.len < 2 ∧
  ¬ctrunc (u.wid - Frac.ofNat 2 * (u.margin + u.lno)) < 3 ∧
  ¬ctrunc (u.wid - Frac.ofNat 2 * (u.margin + u.lno)) <
    ctrunc (Frac.ofNat u.cols / u.cpi) ∧
  ¬Frac.ltb (u.len * Frac.ofNat u.lpi) (Frac.ofNat 4) = true ∧
  ¬Frac.ltb (u.len * Frac.ofNat u.lpi) (Frac.ofNat u.tof) = true ∧
  ¬(u.formtype ≠ PDF_JPEG ∧
    Frac.ltb u.barh (Frac.ofNat 1 / Frac.ofNat u.lpi) = true)

/-- The canonical text a non-initial `pdf_print` call on `u` would
store for input `S`. -/
def parsedOf (u : PdfState) (S : List Nat) : List Nat :=
  (parsestrE { u.esc with parsebuf := [] } S false).e.parsebuf

/-- The session invariant maintained by the modelled calls on a
new-file (non-updating) context. -/
def Sane (u : PdfState) : Prop :=
  u.updating = false ∧ u.anchorpp = 0 ∧ u.resumed = false ∧ u.checkpp = 0 ∧
  u.fpos = blen u.file

/-- Facts available about a context once `PDF_WRITTEN` is set. -/
def WrittenFacts (u : PdfState) : Prop :=
  u.errnum = 0 ∧ u.inited = true ∧ u.active = true ∧ u.formbuf ≠ [] ∧
  0 < u.fpos ∧ u.esc.parsebuf = [] ∧
  u.lpp = (ctrunc (u.len * Frac.ofNat u.lpi)).toNat ∧
  (u.tof = TOF_UNSET → u.tof = (ctrunc (u.top * Frac.ofNat u.lpi)).toNat) ∧
  GeoOK u

/-- The simulation relation between a resumed (checkpointed) context
`a` and the corresponding plain context `b`: they agree on every field
except that `a`'s file carries overwritable checkpoint residue past
`fpos`, `a`'s `checkpp` points into the file, and `a`'s xref map may
hold stale checkpoint entries at and above the shared object counter. -/
def Rel (a b : PdfState) : Prop :=
  ∃ X : Nat → Nat,
    a.fpos ≤ blen a.file ∧
    b = { a with file := a.file.take a.fpos, checkpp := 0, xref := X } ∧
    ∀ k, k < a.obj → X k = a.xref k

/-- The plain-session image of a resumed context: truncate the file at
the write position, clear the checkpoint marker, and replace the xref
map (whose entries at and above the shared object counter are stale
checkpoint residue). -/
def mask (u : PdfState) (X : Nat → Nat) : PdfState :=
  { u with file := u.file.take u.fpos, checkpp := 0, xref := X }

/-- `X` agrees with `u`'s xref map on every allocated slot. -/
def WinOf (u : PdfState) (X : Nat → Nat) : Prop :=
  ∀ k, k < u.obj → X k = u.xref k

/-- The tail of `pdfcloseMain` once the partial page is flushed: the
session objects, xref, trailer, truncation and anchor patch. -/
def closeTail (s : PdfState) (now : List Nat) : PdfState × Nat :=
  let kp := closeKids s
  let s := kp.1
  let plist := kp.2
  let s := closeFonts s plist
  let s := (List.range s.page).foldl (closeLeaf plist) s
  let sa := closeAnchor s plist
  let s := sa.1
  let aobjL := sa.2
  let sc := closeCatalog s aobjL
  let s := sc.1
  let cat := sc.2
  let si := closeInfo s now
  let s := si.1
  let io := si.2
  let sx := closeXref s
  let s := sx.1
  let xrefpos := sx.2
  let s := closeTrailer s cat io xrefpos
  let s := ftruncateHere s
  let s :=
    if s.anchorpp ≠ 0 then wrf (fseekTo s s.anchorpp) (fmtNatPad 10 0x30 aobjL)
    else s
  (s, PDF_OK)

/-! # Theorems -/

/-! ### Parser lemmas -/

theorem parseStore_newlpi (r : ParseRun) (ch : Nat) :
    (parseStore r ch).e.newlpi = r.e.newlpi := rfl

theorem parseCsiint_newlpi (r : ParseRun) (ch : Nat) :
    (parseCsiint r ch).e.newlpi = r.e.newlpi := by
  unfold parseCsiint
  simp only [escintsArrayIsNull, Bool.false_eq_true, false_and, and_false, if_false]
  repeat' first
    | rfl
    | exact parseStore_newlpi r ch
    | split

theorem parseCsip_newlpi (r : ParseRun) (ch : Nat) :
    (parseCsip r ch).e.newlpi = r.e.newlpi := by
  unfold parseCsip
  repeat' first
    | rfl
    | apply parseCsiint_newlpi
    | split

theorem parseSeq_newlpi (r : ParseRun) (ch : Nat) :
    (parseSeq r ch).e.newlpi = r.e.newlpi := by
  unfold parseSeq
  cases h : r.e.escstate <;>
    repeat' first
      | rfl
      | apply parseStore_newlpi
      | apply parseCsip_newlpi
      | apply parseCsiint_newlpi
      | split

theorem parseStepCore_newlpi (r : ParseRun) (ch : Nat) :
    (parseStepCore r ch).e.newlpi = r.e.newlpi := by
  unfold parseStepCore
  repeat' first
    | rfl
    | apply parseStore_newlpi
    | apply parseSeq_newlpi
    | split

theorem parseStep_newlpi (r : ParseRun) (ch : Nat) :
    (parseStep r ch).e.newlpi = r.e.newlpi := by
  unfold parseStep
  split <;> rw [parseStepCore_newlpi]

theorem foldl_parseStep_newlpi (l : List Nat) (r : ParseRun) :
    (l.foldl parseStep r).e.newlpi = r.e.newlpi := by
  induction l generalizing r with
  | nil => rfl
  | cons a t ih => rw [List.foldl_cons, ih, parseStep_newlpi]

/-- Values an `escpars` slot can take stay below `2 ^ 16` (the slots are
`unsigned short`). -/
theorem pars_bound_set {l : List Nat} {i x : Nat} (hb : ∀ v ∈ l, v < 65536)
    (hx : x < 65536) : ∀ v ∈ l.set i x, v < 65536 := by
  intro v hv
  rcases List.mem_or_eq_of_mem_set hv with h | h
  · exact hb v h
  · omega

theorem parseCsiint_pars (r : ParseRun) (ch : Nat)
    (hb : ∀ v ∈ r.e.escpars, v < 65536) :
    ∀ v ∈ (parseCsiint r ch).e.escpars, v < 65536 := by
  unfold parseCsiint execCsiZ parseStore
  repeat' split
  all_goals exact hb

theorem parseCsip_pars (r : ParseRun) (ch : Nat)
    (hb : ∀ v ∈ r.e.escpars, v < 65536) :
    ∀ v ∈ (parseCsip r ch).e.escpars, v < 65536 := by
  unfold parseCsip
  repeat' split
  all_goals first
    | exact hb
    | (apply parseCsiint_pars; exact hb)
    | (apply pars_bound_set hb; omega)

theorem parseSeq_pars (r : ParseRun) (ch : Nat)
    (hb : ∀ v ∈ r.e.escpars, v < 65536) :
    ∀ v ∈ (parseSeq r ch).e.escpars, v < 65536 := by
  unfold parseSeq parseStore
  cases h : r.e.escstate <;> repeat' split
  all_goals first
    | exact hb
    | (apply parseCsip_pars; exact hb)
    | (apply parseCsiint_pars; exact hb)
    | (apply pars_bound_set hb; omega)

theorem parseStepCore_pars (r : ParseRun) (ch : Nat)
    (hb : ∀ v ∈ r.e.escpars, v < 65536) :
    ∀ v ∈ (parseStepCore r ch).e.escpars, v < 65536 := by
  unfold parseStepCore parseStore
  repeat' split
  all_goals first
    | exact hb
    | (apply parseSeq_pars; exact hb)
    | (intro v hv; rw [List.eq_of_mem_replicate hv]; decide)

theorem parseStep_pars (r : ParseRun) (ch : Nat)
    (hb : ∀ v ∈ r.e.escpars, v < 65536) :
    ∀ v ∈ (parseStep r ch).e.escpars, v < 65536 := by
  unfold parseStep
  split <;> (apply parseStepCore_pars; exact hb)

theorem foldl_parseStep_pars (l : List Nat) (r : ParseRun)
    (hb : ∀ v ∈ r.e.escpars, v < 65536) :
    ∀ v ∈ (l.foldl parseStep r).e.escpars, v < 65536 := by
  induction l generalizing r with
  | nil => exact hb
  | cons a t ih => exact ih _ (parseStep_pars _ _ hb)

/-- In `ESC_CSIP`, a decimal digit arriving while the current parameter
is not the default and has bit 15 (`ESC_POVERFLOW`) set moves the parser
to `ESC_BADCSI` and changes nothing else. -/
theorem csip_digit_overflow (r : ParseRun) (ch : Nat)
    (hcs : r.e.escstate = EscState.csip) (h1 : 0x30 ≤ ch) (h2 : ch ≤ 0x39)
    (h3 : r.e.escpars.getD r.e.escpn 0 ≠ ESC_PDEFAULT)
    (h4 : r.e.escpars.getD r.e.escpn 0 &&& ESC_POVERFLOW ≠ 0) :
    (parseStep r ch).e = { r.e with escstate := EscState.badcsi } := by
  have hch : ch % 256 = ch := Nat.mod_eq_of_lt (by omega)
  unfold parseStep parseStepCore parseSeq parseCsip
  rw [hch]
  rw [if_neg (by simp [hcs])]
  rw [if_neg (show ¬(ch = 0x0A) by omega), if_neg (show ¬(ch = 0x0D) by omega),
      if_neg (show ¬(ch = 0x0C) by omega),
      if_neg (show ¬(ch = 0x18 ∨ ch = 0x1A) by omega),
      if_neg (show ¬(ch = 0x1B) by omega), if_neg (show ¬(ch = 0x9B) by omega),
      if_neg (show ¬(ch = 0x9C) by omega),
      if_neg (show ¬(ch = 0x9D ∨ ch = 0x9E ∨ ch = 0x9F) by omega)]
  rw [hcs]
  simp only []
  rw [if_pos (by omega), if_neg (by omega), if_pos (by omega), if_neg h3, if_pos h4]

/-- In `ESC_BADCSI`, a final byte `0x40..0x7E` returns the parser to
`ESC_IDLE`, storing nothing and executing nothing. -/
theorem badcsi_final (r : ParseRun) (ch : Nat)
    (hcs : r.e.escstate = EscState.badcsi) (h1 : 0x40 ≤ ch) (h2 : ch ≤ 0x7E) :
    (parseStep r ch).e = { r.e with escstate := EscState.idle } := by
  have hch : ch % 256 = ch := Nat.mod_eq_of_lt (by omega)
  unfold parseStep parseStepCore parseSeq
  rw [hch]
  rw [if_neg (by simp [hcs])]
  rw [if_neg (show ¬(ch = 0x0A) by omega), if_neg (show ¬(ch = 0x0D) by omega),
      if_neg (show ¬(ch = 0x0C) by omega),
      if_neg (show ¬(ch = 0x18 ∨ ch = 0x1A) by omega),
      if_neg (show ¬(ch = 0x1B) by omega), if_neg (show ¬(ch = 0x9B) by omega),
      if_neg (show ¬(ch = 0x9C) by omega),
      if_neg (show ¬(ch = 0x9D ∨ ch = 0x9E ∨ ch = 0x9F) by omega)]
  rw [hcs]
  simp only []
  rw [if_pos (by omega)]

/-! ### Claim C2 -/

/-- C2: the claim states that a CSI sequence with final byte `z`, no
intermediates and no private marker sets the pending vertical pitch
`newlpi` (`Pn = 1` or default → 6, `Pn = 2` → 8).  In the source the
execute guard `ch == 'z' && !pdf->escints && !pdf->escprv` tests the
address of the `escints` array, which is never null, so the action is
dead code: no input whatsoever changes `newlpi`.  In particular the
sequence `ESC [ 2 z`, which the claim says must set `newlpi = 8`,
leaves it at its default 6 and passes through silently. -/
theorem C2_csi_z_never_sets_newlpi :
    (∀ (s : PdfState) (input : List Nat) (ini : Bool),
        (parsestr s input ini).1.esc.newlpi = s.esc.newlpi) ∧
    (parsestr defaults [0x1B, 0x5B, 0x32, 0x7A] true).1.esc.newlpi = 6 ∧
    (parsestr defaults [0x1B, 0x5B, 0x32, 0x7A] true).1.esc.parsebuf = [] := by
  refine ⟨fun s input ini => ?_, by decide, by decide⟩
  show (parsestrE s.esc input ini).e.newlpi = s.esc.newlpi
  exact foldl_parseStep_newlpi input _

/-! ### Claim C8 -/

/-- C8 counterexample: after `CSI 4 0 0 0 0` the stored parameter is
40000 ≥ 2¹⁵ and the parser is still accumulating in `ESC_CSIP` — the
claimed invariant "strictly below 2¹⁵" is false, because the overflow
test `escpars[escpn] & ESC_POVERFLOW` only fires on the *next* digit. -/
theorem C8_counterexample :
    2 ^ 15 ≤ (parsestrE defaults.esc [0x9B, 0x34, 0x30, 0x30, 0x30, 0x30] true).e.escpars.getD 0 0 ∧
    (parsestrE defaults.esc [0x9B, 0x34, 0x30, 0x30, 0x30, 0x30] true).e.escstate = EscState.csip := by
  decide

/-- C8 (amended): a CSI parameter is stored in a 16-bit slot, so it
always remains below 2¹⁶ (not 2¹⁵ — e.g. `CSI 40000` stores 40000, and
a further accumulation step wraps modulo 2¹⁶); a digit arriving while
the stored value has bit 15 set moves the parser to BADCSI, which on a
final byte `0x40..0x7E` returns to IDLE without executing. -/
theorem C8_csi_param_overflow_amended :
    (∀ (e : EscSt) (input : List Nat) (ini : Bool),
        (∀ v ∈ e.escpars, v < 2 ^ 16) →
        ∀ v ∈ (parsestrE e input ini).e.escpars, v < 2 ^ 16) ∧
    (∀ (r : ParseRun) (ch : Nat),
        r.e.escstate = EscState.csip → 0x30 ≤ ch → ch ≤ 0x39 →
        r.e.escpars.getD r.e.escpn 0 ≠ ESC_PDEFAULT →
        r.e.escpars.getD r.e.escpn 0 &&& ESC_POVERFLOW ≠ 0 →
        (parseStep r ch).e = { r.e with escstate := EscState.badcsi }) ∧
    (∀ (r : ParseRun) (ch : Nat),
        r.e.escstate = EscState.badcsi → 0x40 ≤ ch → ch ≤ 0x7E →
        (parseStep r ch).e = { r.e with escstate := EscState.idle }) :=
  ⟨fun _ input _ hb => foldl_parseStep_pars input _ hb,
   csip_digit_overflow, badcsi_final⟩

/-- Witness for `C8_csi_param_overflow_amended` at concrete inputs:
the parameter slots stay 16-bit bounded on `CSI 40000`; the digit after
`CSI 40000` (bit 15 set) yields BADCSI; a final `z` in BADCSI yields
IDLE. -/
theorem C8_csi_param_overflow_amended_witness :
    (∀ v ∈ (parsestrE defaults.esc [0x9B, 0x34, 0x30, 0x30, 0x30, 0x30] true).e.escpars,
        v < 2 ^ 16) ∧
    (parseStep { e := (parsestrE defaults.esc [0x9B, 0x34, 0x30, 0x30, 0x30, 0x30] true).e,
                 initial := false, ffseen := 0 } 0x30).e
      = { (parsestrE defaults.esc [0x9B, 0x34, 0x30, 0x30, 0x30, 0x30] true).e with
          escstate := EscState.badcsi } ∧
    (parseStep { e := { defaults.esc with escstate := EscState.badcsi },
                 initial := false, ffseen := 0 } 0x7A).e
      = { defaults.esc with escstate := EscState.idle } :=
  ⟨C8_csi_param_overflow_amended.1 _ _ _ (by decide),
   C8_csi_param_overflow_amended.2.1 _ _ (by decide) (by decide) (by decide)
     (by decide) (by decide),
   C8_csi_param_overflow_amended.2.2 _ _ (by decide) (by decide) (by decide)⟩

/-! ### Claim C9 -/

theorem bytes_pdf_eq : String.bytes "pdf" = [0x70, 0x64, 0x66] := by decide

theorem extLoop_pdf_iff (islc : Bool) (ext : List Nat) :
    extLoop islc ext (String.bytes "pdf") = true ↔
      ext = (if islc then [0x70, 0x64, 0x66] else [0x50, 0x44, 0x46]) := by
  rw [bytes_pdf_eq]
  rcases ext with _ | ⟨a, _ | ⟨b, _ | ⟨c, _ | ⟨d, t⟩⟩⟩⟩ <;>
    cases islc <;> simp [extLoop, toupperB]

/-- C9 counterexample: a path with no `.` at all (here `"x"`) passes
`pdf_open`'s filename check — `pdf_open` proceeds to open it — although
it does not end in a `.pdf` extension under any comparison.  (The check
is also not case-insensitive: `"a.Pdf"` is rejected.) -/
theorem C9_counterexample :
    pdf_open_name_ok (String.bytes "x") = true ∧
    endsPdfCI (String.bytes "x") = false ∧
    pdf_open_name_ok (String.bytes "a.Pdf") = false ∧
    endsPdfCI (String.bytes "a.Pdf") = true := by
  decide

/-- C9 (amended): `pdf_open`'s filename check passes exactly when the
path contains no `.` at all, or its final extension is exactly `pdf` or
exactly `PDF`.  (The first byte after the dot selects which: lowercase
demands `pdf`, anything else demands `PDF`; mixed case such as `.Pdf`
fails with `PDF_E_BAD_FILENAME`.) -/
theorem C9_open_extension_check_amended :
    ∀ fname : List Nat,
      pdf_open_name_ok fname = true ↔
        (fname.contains 0x2E = false ∨
         lastExt fname = String.bytes "pdf" ∨
         lastExt fname = String.bytes "PDF") := by
  intro fname
  unfold pdf_open_name_ok
  by_cases h : fname.contains 0x2E
  · rw [if_pos h, extLoop_pdf_iff, bytes_pdf_eq]
    have hPDF : String.bytes "PDF" = [0x50, 0x44, 0x46] := by decide
    rw [hPDF]
    cases hl : islowerB ((lastExt fname).headD 0)
    · simp only [if_false, h, Bool.true_eq_false, false_or]
      constructor
      · exact fun he => Or.inr he
      · rintro (he | he)
        · rw [he] at hl
          exact absurd hl (by decide)
        · exact he
    · simp only [if_true, h, Bool.true_eq_false, false_or]
      constructor
      · exact fun he => Or.inl he
      · rintro (he | he)
        · exact he
        · rw [he] at hl
          exact absurd hl (by decide)
  · rw [if_neg h]
    simp only [Bool.not_eq_true] at h
    exact iff_of_true rfl (Or.inl h)

/-! ### Claim C7 -/

/-- C7: the claim states that a successful `set` of `PDF_LNO_FONT`
updates only `nfont` and a successful `set` of `PDF_LABEL_FONT` updates
only `nbold`, leaving `font` untouched.  In the source all three font
cases execute `font = &pdf->font;`, so the `PDF_LNO_FONT` and
`PDF_LABEL_FONT` arms (embedded as `pdfsetFontArm`, the code shared by
all three keys) store the new name into the text-font field `font` and
leave `nfont` and `nbold` at their previous values — here evaluated on a
fresh context with the valid base-14 name `Helvetica`. -/
theorem C7_lno_label_font_overwrite_text_font :
    (pdfsetFontArm defaults (String.bytes "Helvetica")).2 = PDF_OK ∧
    (pdfsetFontArm defaults (String.bytes "Helvetica")).1.font
      = String.bytes "Helvetica" ∧
    (pdfsetFontArm defaults (String.bytes "Helvetica")).1.nfont
      = String.bytes "Times-Roman" ∧
    (pdfsetFontArm defaults (String.bytes "Helvetica")).1.nbold
      = String.bytes "Times-Bold" := by
  decide

/-! ### Claim C1 -/

set_option maxRecDepth 40000 in
/-- C1: the claim says that for every byte string `B`, decoding
`lzw_encode B` with the PDF LZWDecode algorithm at `EarlyChange = 0`
reproduces `B`.  It does not: `lzw_add_str` grows the code size when the
*newly assigned* code equals `(1 << codesize) - 1` (entry 511), so the
first code emitted after entry 511 exists is already 10 bits wide.  That
is the PDF standard's `EarlyChange = 1` timing ("one code earlier than
necessary"); an `EarlyChange = 0` decoder keeps reading 9-bit codes
until entry 512 would be assigned and desynchronizes.  On the 256-byte
string `0x00 0x01 ... 0xFF` (256 emissions, crossing the 511-entry
boundary) the `EarlyChange = 0` decode fails outright, while the same
stream decodes to exactly `B` under `EarlyChange = 1` — which is what
real readers use, because the stream dictionary the program writes spells
the key `/DecodeParams` (the PDF name is `/DecodeParms`), so its
`/EarlyChange 0` entry is ignored and the default 1 applies. -/
theorem C1_lzw_earlychange0_roundtrip_fails :
    lzwDecode 0 (lzw_encode (List.range 256)) = none ∧
    lzwDecode 0 (lzw_encode (List.range 256)) ≠ some (List.range 256) ∧
    lzwDecode 1 (lzw_encode (List.range 256)) = some (List.range 256) := by
  refine ⟨by decide, ?_, by decide⟩
  intro h
  have h0 : lzwDecode 0 (lzw_encode (List.range 256)) = none := by decide
  rw [h0] at h
  exact Option.noConfusion h

/-! ### List and file-model bridge lemmas -/

theorem blenGo_eq (l : List Nat) : ∀ n, blenGo l n = l.length + n := by
  induction l with
  | nil => intro n; simp [blenGo]
  | cons a t ih =>
      intro n
      cases n with
      | zero => simp [blenGo, ih]
      | succ m => simp [blenGo, ih]; omega

theorem blen_eq (l : List Nat) : blen l = l.length := by
  simp [blen, blenGo_eq]

theorem listEqTR_refl (l : List Nat) : listEqTR l l = true := by
  induction l with
  | nil => rfl
  | cons a t ih => simp [listEqTR, ih]

/-- When the position is at the end of the file, `wrf` appends. -/
theorem wrf_app (s : PdfState) (x : List Nat) (h : s.fpos = blen s.file) :
    wrf s x = { s with file := s.file ++ x, fpos := blen (s.file ++ x) } := by
  have h1 : fileWrite s.file s.fpos x = s.file ++ x := by
    unfold fileWrite
    rw [h, blen_eq, List.take_length, List.drop_eq_nil_of_le (Nat.le_add_right _ _),
      List.append_nil]
  have h2 : s.fpos + blen x = blen (s.file ++ x) := by
    rw [blen_eq, blen_eq, List.length_append, h, blen_eq]
  unfold wrf
  rw [h1, h2]

theorem wrf3_app (t : PdfState) (ht : t.fpos = blen t.file) (a b c : List Nat) :
    (wrf (wrf (wrf t a) b) c).file = t.file ++ a ++ b ++ c := by
  rw [wrf_app t a ht, wrf_app _ b rfl, wrf_app _ c rfl]

/-! ### Claim C10 -/

/-- C10: on a context with the `PDF_WRITTEN` flag clear,
`pdf_checkpoint` returns `PDF_OK` and leaves the context (including the
output file) completely unchanged. -/
theorem C10_checkpoint_noop_when_unwritten (s : PdfState) (now : List Nat)
    (h : s.written = false) : pdf_checkpoint s now = (s, PDF_OK) := by
  simp [pdf_checkpoint, h]

theorem C10_checkpoint_noop_when_unwritten_witness :
    pdf_checkpoint defaults [] = (defaults, PDF_OK) :=
  C10_checkpoint_noop_when_unwritten defaults [] rfl

/-! ### Claim C4 -/

/-- C4 counterexample: the configuration `badGeo` violates the spec
invariant `wid − 2·(margin + lno) ≥ cols / cpi` in real arithmetic
(3.3 < 3.9), yet the first print call returns `PDF_OK`, not
`E_INCON_GEO`, because the code compares `(int)`-truncated values
(3 < 3 fails). -/
theorem C4_counterexample :
    Frac.ltb (badGeo.wid - Frac.ofNat 2 * (badGeo.margin + badGeo.lno))
      (Frac.ofNat badGeo.cols / badGeo.cpi) = true ∧
    (pdf_print badGeo []).2 = PDF_OK ∧ PDF_OK ≠ E_INCON_GEO := by decide

theorem geoPrep_file (s : PdfState) : (geoPrep s).file = s.file := by
  simp only [geoPrep]
  split <;> rfl

/-- C4 amended: when one of the geometry checks as actually coded (the
truncated comparisons of `geoRejects`) rejects, the first print call
returns `E_INCON_GEO`, records it in `errnum`, and leaves the file
unchanged. -/
theorem C4_geo_truncated_amended (s : PdfState) (input : List Nat)
    (hw : s.written = false) (hv : geoRejects s) :
    (pdf_print s input).2 = E_INCON_GEO ∧
    (pdf_print s input).1.file = s.file ∧
    (pdf_print s input).1.errnum = E_INCON_GEO := by
  unfold pdf_print
  rw [hw]
  simp only [Bool.false_eq_true, not_false_iff, if_true]
  by_cases h1 : ctrunc (geoPrep s).len < 2
  · rw [if_pos h1]; exact ⟨rfl, geoPrep_file s, rfl⟩
  rw [if_neg h1]
  by_cases h2 : ctrunc ((geoPrep s).wid - Frac.ofNat 2 * ((geoPrep s).margin + (geoPrep s).lno)) < 3
  · rw [if_pos h2]; exact ⟨rfl, geoPrep_file s, rfl⟩
  rw [if_neg h2]
  by_cases h3 : ctrunc ((geoPrep s).wid - Frac.ofNat 2 * ((geoPrep s).margin + (geoPrep s).lno)) <
      ctrunc (Frac.ofNat (geoPrep s).cols / (geoPrep s).cpi)
  · rw [if_pos h3]; exact ⟨rfl, geoPrep_file s, rfl⟩
  rw [if_neg h3]
  by_cases h4 : Frac.ltb ((geoPrep s).len * Frac.ofNat (geoPrep s).lpi) (Frac.ofNat 4) = true
  · rw [if_pos h4]; exact ⟨rfl, geoPrep_file s, rfl⟩
  rw [if_neg h4]
  by_cases h5 : Frac.ltb ((geoPrep s).len * Frac.ofNat (geoPrep s).lpi)
      (Frac.ofNat (geoPrep s).tof) = true
  · rw [if_pos h5]; exact ⟨rfl, geoPrep_file s, rfl⟩
  rw [if_neg h5]
  by_cases h6 : (geoPrep s).formtype ≠ PDF_JPEG ∧
      Frac.ltb (geoPrep s).barh (Frac.ofNat 1 / Frac.ofNat (geoPrep s).lpi) = true
  · rw [if_pos h6]; exact ⟨rfl, geoPrep_file s, rfl⟩
  rcases hv with hv | hv | hv | hv | hv | hv
  exacts [absurd hv h1, absurd hv h2, absurd hv h3, absurd hv h4, absurd hv h5, absurd hv h6]

theorem C4_geo_truncated_amended_witness :
    (pdf_print { defaults with len := fr 1 1 } []).2 = E_INCON_GEO ∧
    (pdf_print { defaults with len := fr 1 1 } []).1.file =
      ({ defaults with len := fr 1 1 } : PdfState).file ∧
    (pdf_print { defaults with len := fr 1 1 } []).1.errnum = E_INCON_GEO :=
  C4_geo_truncated_amended { defaults with len := fr 1 1 } [] rfl (Or.inl (by decide))

/-! ### Claim C6 -/

/-- C6: the content-stream choice of `wrpage` (its `wrstream` tail).
With the file position at end of file: when compression is enabled and
the LZW encoding is strictly smaller than the raw page stream, the
object is written with the `/Filter /LZWDecode` dictionary carrying
`/Length` of the encoded data and `/DL` of the raw length, followed by
the encoded bytes; otherwise (compression disabled, or encoder output
≥ input) the raw stream is written with only `/Length`. -/
theorem C6_lzw_stream_choice (s : PdfState) (obj : Nat)
    (h : s.fpos = blen s.file) :
    (s.uncompressed = false → blen (lzw_encode s.pagebuf) < blen s.pagebuf →
      (wrstream s obj).file =
        s.file ++ lzwStrmHdr obj (blen (lzw_encode s.pagebuf)) (blen s.pagebuf) ++
        lzw_encode s.pagebuf ++ String.bytes "\nendstream\nendobj\n\n") ∧
    (s.uncompressed = true ∨ blen s.pagebuf ≤ blen (lzw_encode s.pagebuf) →
      (wrstream s obj).file =
        s.file ++ rawStrmHdr obj (blen s.pagebuf) ++ s.pagebuf ++
        String.bytes "\nendstream\nendobj\n\n") := by
  constructor
  · intro hu hlt
    unfold wrstream encstm
    rw [hu]
    simp only [Bool.false_eq_true, if_false]
    rw [if_neg (by simpa using Nat.not_le.mpr hlt)]
    exact wrf3_app { s with lzwbuf := lzw_encode s.pagebuf } h _ _ _
  · intro hge
    unfold wrstream encstm
    cases hu : s.uncompressed with
    | true =>
        simp only [if_true]
        exact wrf3_app s h _ _ _
    | false =>
        simp only [Bool.false_eq_true, if_false]
        rcases hge with hge | hge
        · rw [hu] at hge; cases hge
        · rw [if_pos (by simpa using hge)]
          exact wrf3_app { s with lzwbuf := lzw_encode s.pagebuf } h _ _ _

theorem C6_lzw_stream_choice_witness :
    (wrstream { defaults with pagebuf := List.replicate 100 0x41 } 3).file =
      ([] : List Nat) ++
      lzwStrmHdr 3 (blen (lzw_encode (List.replicate 100 0x41)))
        (blen (List.replicate 100 0x41)) ++
      lzw_encode (List.replicate 100 0x41) ++
      String.bytes "\nendstream\nendobj\n\n" :=
  (C6_lzw_stream_choice { defaults with pagebuf := List.replicate 100 0x41 } 3
    rfl).1 rfl (by decide)

/-! ### Claim C5: the per-call locals of `parsestr` -/

theorem execCsiZ_initial (r : ParseRun) : (execCsiZ r).initial = r.initial := by
  unfold execCsiZ
  repeat' first | rfl | split

theorem execCsiZ_ffseen (r : ParseRun) : (execCsiZ r).ffseen = r.ffseen := by
  unfold execCsiZ
  repeat' first | rfl | split

theorem execCsiZ_e_eq (e : EscSt) (i1 i2 : Bool) (f1 f2 : Nat) :
    (execCsiZ ⟨e, i1, f1⟩).e = (execCsiZ ⟨e, i2, f2⟩).e := by
  unfold execCsiZ
  dsimp only
  repeat' first | rfl | split

theorem parseCsiint_initial (r : ParseRun) (ch : Nat) (h : r.initial = false) :
    (parseCsiint r ch).initial = false := by
  unfold parseCsiint parseStore
  repeat' first | exact h | rfl | (rw [execCsiZ_initial]; exact h) | split

theorem parseCsiint_ffseen (r : ParseRun) (ch : Nat) :
    (parseCsiint r ch).ffseen = r.ffseen := by
  unfold parseCsiint parseStore
  repeat' first | rfl | apply execCsiZ_ffseen | split

theorem parseCsiint_e_eq (e : EscSt) (i1 i2 : Bool) (f1 f2 : Nat) (ch : Nat) :
    (parseCsiint ⟨e, i1, f1⟩ ch).e = (parseCsiint ⟨e, i2, f2⟩ ch).e := by
  unfold parseCsiint parseStore
  dsimp only
  repeat' first | rfl | apply execCsiZ_e_eq | split

theorem parseCsip_initial (r : ParseRun) (ch : Nat) (h : r.initial = false) :
    (parseCsip r ch).initial = false := by
  unfold parseCsip
  repeat' first | exact h | rfl | (apply parseCsiint_initial; exact h) | split

theorem parseCsip_ffseen (r : ParseRun) (ch : Nat) :
    (parseCsip r ch).ffseen = r.ffseen := by
  unfold parseCsip
  repeat' first | rfl | apply parseCsiint_ffseen | split

theorem parseCsip_e_eq (e : EscSt) (i1 i2 : Bool) (f1 f2 : Nat) (ch : Nat) :
    (parseCsip ⟨e, i1, f1⟩ ch).e = (parseCsip ⟨e, i2, f2⟩ ch).e := by
  unfold parseCsip
  dsimp only
  repeat' first | rfl | apply parseCsiint_e_eq | split

theorem parseSeq_initial (r : ParseRun) (ch : Nat) (h : r.initial = false) :
    (parseSeq r ch).initial = false := by
  unfold parseSeq parseStore
  cases hs : r.e.escstate <;>
    repeat' first
      | exact h
      | rfl
      | (apply parseCsip_initial; exact h)
      | (apply parseCsiint_initial; exact h)
      | split

theorem parseSeq_ffseen (r : ParseRun) (ch : Nat) :
    (parseSeq r ch).ffseen = r.ffseen := by
  unfold parseSeq parseStore
  cases hs : r.e.escstate <;>
    repeat' first
      | rfl
      | apply parseCsip_ffseen
      | apply parseCsiint_ffseen
      | split

theorem parseSeq_e_eq (e : EscSt) (i1 i2 : Bool) (f1 f2 : Nat) (ch : Nat) :
    (parseSeq ⟨e, i1, f1⟩ ch).e = (parseSeq ⟨e, i2, f2⟩ ch).e := by
  unfold parseSeq parseStore
  dsimp only
  cases hs : e.escstate <;>
    repeat' first
      | rfl
      | apply parseCsip_e_eq
      | apply parseCsiint_e_eq
      | split

/-- One step preserves the relation between an initial-mode run that has
already counted an `FF` (or left initial mode) and a non-initial run
with the same parser fields. -/
theorem coreRel (e : EscSt) (i1 : Bool) (f1 f2 : Nat) (ch : Nat)
    (hd : i1 = false ∨ f1 ≠ 0) :
    (parseStepCore ⟨e, i1, f1⟩ ch).e = (parseStepCore ⟨e, false, f2⟩ ch).e ∧
    (parseStepCore ⟨e, false, f2⟩ ch).initial = false ∧
    ((parseStepCore ⟨e, i1, f1⟩ ch).initial = false ∨
     (parseStepCore ⟨e, i1, f1⟩ ch).ffseen ≠ 0) := by
  unfold parseStepCore
  dsimp only
  by_cases hlf : ch = 0x0A
  · rw [if_pos hlf, if_pos hlf]; exact ⟨rfl, rfl, Or.inl rfl⟩
  rw [if_neg hlf, if_neg hlf]
  by_cases hcr : ch = 0x0D
  · rw [if_pos hcr, if_pos hcr]
    rw [if_neg (by rcases hd with h | h <;> simp [h]), if_neg (by simp)]
    exact ⟨rfl, rfl, Or.inl rfl⟩
  rw [if_neg hcr, if_neg hcr]
  by_cases hff : ch = 0x0C
  · rw [if_pos hff, if_pos hff]
    cases i1 with
    | false =>
        rw [if_neg (show ¬((false : Bool) = true) from by simp),
          if_neg (show ¬((false : Bool) = true) from by simp)]
        exact ⟨rfl, rfl, Or.inl rfl⟩
    | true =>
        have hf1 : f1 ≠ 0 := by
          rcases hd with h | h
          · simp at h
          · exact h
        rw [if_pos (show (true : Bool) = true from rfl), if_neg hf1,
          if_neg (show ¬((false : Bool) = true) from by simp)]
        exact ⟨rfl, rfl, Or.inl rfl⟩
  rw [if_neg hff, if_neg hff]
  by_cases hcs : ch = 0x18 ∨ ch = 0x1A
  · rw [if_pos hcs, if_pos hcs]; exact ⟨rfl, rfl, hd⟩
  rw [if_neg hcs, if_neg hcs]
  by_cases hesc : ch = 0x1B
  · rw [if_pos hesc, if_pos hesc]; exact ⟨rfl, rfl, hd⟩
  rw [if_neg hesc, if_neg hesc]
  by_cases hcsi : ch = 0x9B
  · rw [if_pos hcsi, if_pos hcsi]; exact ⟨rfl, rfl, hd⟩
  rw [if_neg hcsi, if_neg hcsi]
  by_cases hst : ch = 0x9C
  · rw [if_pos hst, if_pos hst]; exact ⟨rfl, rfl, hd⟩
  rw [if_neg hst, if_neg hst]
  by_cases hos : ch = 0x9D ∨ ch = 0x9E ∨ ch = 0x9F
  · rw [if_pos hos, if_pos hos]; exact ⟨rfl, rfl, hd⟩
  rw [if_neg hos, if_neg hos]
  refine ⟨parseSeq_e_eq e i1 false f1 f2 ch, parseSeq_initial _ _ rfl, ?_⟩
  rcases hd with h | h
  · subst h; exact Or.inl (parseSeq_initial _ _ rfl)
  · right; rw [parseSeq_ffseen]; exact h

theorem stepRel (e : EscSt) (i1 : Bool) (f1 f2 : Nat) (ch : Nat)
    (hd : i1 = false ∨ f1 ≠ 0) :
    (parseStep ⟨e, i1, f1⟩ ch).e = (parseStep ⟨e, false, f2⟩ ch).e ∧
    (parseStep ⟨e, false, f2⟩ ch).initial = false ∧
    ((parseStep ⟨e, i1, f1⟩ ch).initial = false ∨
     (parseStep ⟨e, i1, f1⟩ ch).ffseen ≠ 0) := by
  unfold parseStep
  dsimp only
  by_cases hx : e.escstate = EscState.escseq ∧ 0x40 ≤ ch % 256 ∧ ch % 256 ≤ 0x5F
  · rw [if_pos hx, if_pos hx]
    exact coreRel { e with escstate := EscState.idle } i1 f1 f2 (ch % 256 + 0x40) hd
  · rw [if_neg hx, if_neg hx]
    exact coreRel e i1 f1 f2 (ch % 256) hd

theorem foldRel (R : List Nat) : ∀ (e : EscSt) (i1 : Bool) (f1 f2 : Nat),
    (i1 = false ∨ f1 ≠ 0) →
    (R.foldl parseStep ⟨e, i1, f1⟩).e = (R.foldl parseStep ⟨e, false, f2⟩).e := by
  induction R with
  | nil => intro e i1 f1 f2 _; rfl
  | cons c t ih =>
      intro e i1 f1 f2 hd
      simp only [List.foldl_cons]
      have h := stepRel e i1 f1 f2 c hd
      rcases hq1 : parseStep ⟨e, i1, f1⟩ c with ⟨e1, j1, g1⟩
      rcases hq2 : parseStep ⟨e, false, f2⟩ c with ⟨e2, j2, g2⟩
      rw [hq1, hq2] at h
      obtain ⟨he, hj2, hdisj⟩ := h
      dsimp only at he hj2 hdisj
      subst he
      subst hj2
      exact ih e1 j1 g1 g2 hdisj

theorem parseStep_cr_discard (e : EscSt) :
    parseStep ⟨e, true, 0⟩ 0x0D = ⟨e, true, 0⟩ := by
  unfold parseStep parseStepCore
  rw [if_neg (fun h => absurd h.2.1 (by decide))]
  dsimp only
  rw [if_neg (by decide), if_pos (by decide), if_pos (by simp)]

theorem parseStep_ff_discard (e : EscSt) :
    parseStep ⟨e, true, 0⟩ 0x0C = ⟨e, true, 1⟩ := by
  unfold parseStep parseStepCore
  rw [if_neg (fun h => absurd h.2.1 (by decide))]
  dsimp only
  rw [if_neg (by decide), if_neg (by decide), if_pos (by decide),
    if_pos (by simp), if_pos rfl]

theorem foldl_cr_prefix (n : Nat) (e : EscSt) :
    (List.replicate n 0x0D).foldl parseStep ⟨e, true, 0⟩ = ⟨e, true, 0⟩ := by
  induction n with
  | zero => rfl
  | succ m ih =>
      simp only [List.replicate_succ, List.foldl_cons, parseStep_cr_discard, ih]

/-- C5 amended: on the initial parser call, feeding `CR^n FF R` leaves
the parser fields (including the stored text `parsebuf`) exactly as
feeding `R` in non-initial mode does: the leading `CR`s and the first
`FF` are discarded, and the remainder is processed with the discard
spent.  (This is not the same as printing `R` alone in a fresh session,
which would re-apply the discard to `R`; and even when the stored text
agrees, the output files differ in the document `/ID`, which hashes the
raw input including discarded bytes.) -/
theorem C5_initial_discard_amended (e : EscSt) (n : Nat) (R : List Nat) :
    (parsestrE e (List.replicate n 0x0D ++ 0x0C :: R) true).e =
    (parsestrE e R false).e := by
  unfold parsestrE
  rw [List.foldl_append, foldl_cr_prefix, List.foldl_cons, parseStep_ff_discard]
  exact foldRel R e true 1 0 (Or.inr one_ne_zero)

set_option maxRecDepth 40000 in
set_option maxHeartbeats 4000000 in
/-- C5 counterexample: the stream `FF CR X LF` (zero `CR`s, one `FF`,
remainder `R = CR X LF`) printed into a fresh session does not produce
the same output file as printing `R` alone: the discarded-prefix claim
fails because printing `R` alone re-applies the initial discard to the
`CR` of `R` (and the document `/ID` hashes the raw input).  The files
even have different lengths. -/
theorem C5_counterexample :
    runOnce tinyCfg [0x0C, 0x0D, 0x58, 0x0A] nowT ≠
    runOnce tinyCfg [0x0D, 0x58, 0x0A] nowT := by
  intro h
  have h1 : blen (runOnce tinyCfg [0x0C, 0x0D, 0x58, 0x0A] nowT) = 3711 := by decide
  have h2 : blen (runOnce tinyCfg [0x0D, 0x58, 0x0A] nowT) = 3699 := by decide
  rw [h, h2] at h1
  exact absurd h1 (by decide)

theorem appendL_ne_nil {l r : List Nat} (h : l ≠ []) : l ++ r ≠ [] := by
  cases l with
  | nil => exact absurd rfl h
  | cons a t => simp

theorem setform_shape (u : PdfState) : ∃ fb, setform u = { u with formbuf := fb } :=
  ⟨_, rfl⟩

theorem setform_formbuf_ne_nil (u : PdfState) : (setform u).formbuf ≠ [] := by
  simp only [setform]
  split <;> split <;>
    (repeat' apply appendL_ne_nil) <;> decide

theorem wrf3_app_rec (t : PdfState) (ht : t.fpos = blen t.file) (a b c : List Nat) :
    wrf (wrf (wrf t a) b) c =
      { t with file := t.file ++ (a ++ (b ++ c)),
               fpos := blen (t.file ++ (a ++ (b ++ c))) } := by
  rw [wrf_app t a ht]
  rw [wrf_app { t with file := t.file ++ a, fpos := blen (t.file ++ a) } b rfl]
  rw [wrf_app { t with file := (t.file ++ a) ++ b, fpos := blen ((t.file ++ a) ++ b) }
    c rfl]
  simp only [List.append_assoc]

theorem wrstream_shape (u : PdfState) (o : Nat) (hf : u.fpos = blen u.file) :
    ∃ T L, wrstream u o =
      { u with file := u.file ++ T, fpos := blen (u.file ++ T), lzwbuf := L } := by
  unfold wrstream
  dsimp only
  split
  · rw [wrf3_app_rec u hf]
    exact ⟨_, _, rfl⟩
  · have he : (encstm u).1 = { u with lzwbuf := lzw_encode u.pagebuf } := rfl
    split
    · rw [he, wrf3_app_rec { u with lzwbuf := lzw_encode u.pagebuf } hf]
      exact ⟨_, _, rfl⟩
    · rw [he, wrf3_app_rec { u with lzwbuf := lzw_encode u.pagebuf } hf]
      exact ⟨_, _, rfl⟩

theorem tofSwapGo_shape : ∀ (n : Nat) (v : PdfState) (l : Nat),
    ∃ LS LN, tofSwapGo v l n = { v with lines := LS, line := LN } := by
  intro n
  induction n with
  | zero => intro v l; exact ⟨v.lines, v.line, rfl⟩
  | succ m ih =>
      intro v l
      unfold tofSwapGo
      split
      · exact ⟨v.lines, v.line, rfl⟩
      · split
        · exact ih v (l + 1)
        · dsimp only
          split
          · obtain ⟨LS, LN, h⟩ := ih _ (l + 1)
            exact ⟨LS, LN, by rw [h]⟩
          · obtain ⟨LS, LN, h⟩ := ih _ (l + 1)
            exact ⟨LS, LN, by rw [h]⟩

theorem tofSwap_shape (v : PdfState) :
    ∃ LS LN, tofSwap v = { v with lines := LS, line := LN } := by
  unfold tofSwap
  split
  · exact tofSwapGo_shape _ _ _
  · exact ⟨v.lines, v.line, rfl⟩

theorem add2line_shape (u : PdfState) (t : List Nat) :
    ∃ LS, add2line u t = { u with lines := LS } :=
  ⟨_, rfl⟩
/-- Mask every field the pagination loop can change; `core`-equality
states that two contexts agree on configuration and session flags. -/
def core (u : PdfState) : PdfState :=
  { u with file := [], fpos := 0, xref := fun _ => 0, pagebuf := [], lzwbuf := [],
           lines := [], line := 0, page := 0, obj := 0, sha1bytes := [] }

theorem core_wrf (u : PdfState) (x : List Nat) : core (wrf u x) = core u := rfl

theorem core_addobj (u : PdfState) : core ((addobj u).1) = core u := rfl

theorem core_tofSwapGo : ∀ (n : Nat) (v : PdfState) (l : Nat),
    core (tofSwapGo v l n) = core v := by
  intro n
  induction n with
  | zero => intro v l; rfl
  | succ m ih =>
      intro v l
      unfold tofSwapGo
      split
      · rfl
      · split
        · exact ih v (l + 1)
        · dsimp only
          split
          · rw [ih]; rfl
          · rw [ih]; rfl

theorem core_tofSwap (v : PdfState) : core (tofSwap v) = core v := by
  unfold tofSwap
  split
  · exact core_tofSwapGo _ _ _
  · rfl

theorem core_encstm (u : PdfState) : core (encstm u).1 = core u := rfl

theorem core_wrstream (u : PdfState) (o : Nat) : core (wrstream u o) = core u := by
  unfold wrstream
  dsimp only
  split
  · rw [core_wrf, core_wrf, core_wrf]
  · split
    · rw [core_wrf, core_wrf, core_wrf, core_encstm]
    · rw [core_wrf, core_wrf, core_wrf, core_encstm]

theorem core_wrpage (u : PdfState) : core (wrpage u) = core u := by
  unfold wrpage
  dsimp only
  split
  · rw [core_wrstream, core_tofSwap]; rfl
  · rw [core_wrstream, core_tofSwap]; rfl

theorem core_add2line (u : PdfState) (t : List Nat) :
    core (add2line u t) = core u := rfl

theorem core_promoteLine (u : PdfState) : core (promoteLine u) = core u := by
  unfold promoteLine
  split <;> rfl

theorem core_bumpLine (u : PdfState) : core (bumpLine u) = core u := rfl

theorem core_dataStep (u : PdfState) (c : Nat) : core (dataStep u c) = core u := by
  unfold dataStep
  dsimp only
  split
  · rw [core_wrpage, core_promoteLine]
  · split
    · rw [core_bumpLine, core_promoteLine]
      split
      · rw [core_wrpage]
      · rfl
    · rw [core_add2line, core_promoteLine]
      split
      · rw [core_wrpage]
      · rfl

theorem core_foldl_dataStep (l : List Nat) : ∀ (u : PdfState),
    core (l.foldl dataStep u) = core u := by
  induction l with
  | nil => intro u; rfl
  | cons c t ih => intro u; rw [List.foldl_cons, ih, core_dataStep]

theorem core_printTail (u : PdfState) (parsed : List Nat) :
    core (printTail u parsed).1 = core u := by
  unfold printTail
  split
  · rfl
  · split
    · rfl
    · exact core_foldl_dataStep parsed u

/-! ### File-growth invariants -/

theorem tofSwapGo_filepos : ∀ (n : Nat) (v : PdfState) (l : Nat),
    (tofSwapGo v l n).file = v.file ∧ (tofSwapGo v l n).fpos = v.fpos := by
  intro n
  induction n with
  | zero => intro v l; exact ⟨rfl, rfl⟩
  | succ m ih =>
      intro v l
      unfold tofSwapGo
      split
      · exact ⟨rfl, rfl⟩
      · split
        · exact ih v (l + 1)
        · dsimp only
          split
          · rw [(ih _ (l + 1)).1, (ih _ (l + 1)).2]; exact ⟨rfl, rfl⟩
          · rw [(ih _ (l + 1)).1, (ih _ (l + 1)).2]; exact ⟨rfl, rfl⟩

theorem tofSwap_filepos (v : PdfState) :
    (tofSwap v).file = v.file ∧ (tofSwap v).fpos = v.fpos := by
  unfold tofSwap
  split
  · exact tofSwapGo_filepos _ _ _
  · exact ⟨rfl, rfl⟩

theorem wrstream_inv (u : PdfState) (o : Nat) (hf : u.fpos = blen u.file) :
    (wrstream u o).fpos = blen (wrstream u o).file ∧
    u.fpos ≤ (wrstream u o).fpos := by
  obtain ⟨T, L, h⟩ := wrstream_shape u o hf
  rw [h]
  refine ⟨rfl, ?_⟩
  rw [hf, blen_eq, blen_eq, List.length_append]
  exact Nat.le_add_right _ _

theorem wrstream_tofSwap_inv (w : PdfState) (o : Nat)
    (hf : w.fpos = blen w.file) :
    (wrstream (tofSwap w) o).fpos = blen (wrstream (tofSwap w) o).file ∧
    w.fpos ≤ (wrstream (tofSwap w) o).fpos := by
  obtain ⟨h1, h2⟩ := wrstream_inv (tofSwap w) o
    (by rw [(tofSwap_filepos w).1, (tofSwap_filepos w).2]; exact hf)
  rw [(tofSwap_filepos w).2] at h2
  exact ⟨h1, h2⟩

theorem wrpage_inv (u : PdfState) (hf : u.fpos = blen u.file) :
    (wrpage u).fpos = blen (wrpage u).file ∧ u.fpos ≤ (wrpage u).fpos := by
  unfold wrpage
  dsimp only
  split <;> (apply wrstream_tofSwap_inv; exact hf)

theorem dataStep_inv (u : PdfState) (c : Nat) (hf : u.fpos = blen u.file) :
    (dataStep u c).fpos = blen (dataStep u c).file ∧
    u.fpos ≤ (dataStep u c).fpos := by
  have hpl : ∀ v : PdfState, (promoteLine v).file = v.file ∧
      (promoteLine v).fpos = v.fpos := by
    intro v; unfold promoteLine; split <;> exact ⟨rfl, rfl⟩
  have hbl : ∀ v : PdfState, (bumpLine v).file = v.file ∧
      (bumpLine v).fpos = v.fpos := fun v => ⟨rfl, rfl⟩
  have hal : ∀ (v : PdfState) t, (add2line v t).file = v.file ∧
      (add2line v t).fpos = v.fpos := fun v t => ⟨rfl, rfl⟩
  have hov : (if u.lpp + u.tof < u.line then wrpage u else u).fpos =
      blen (if u.lpp + u.tof < u.line then wrpage u else u).file ∧
      u.fpos ≤ (if u.lpp + u.tof < u.line then wrpage u else u).fpos := by
    split
    · exact wrpage_inv u hf
    · exact ⟨hf, Nat.le_refl _⟩
  unfold dataStep
  dsimp only
  split
  · have h := wrpage_inv (promoteLine u) (by rw [(hpl u).1, (hpl u).2]; exact hf)
    rw [(hpl u).2] at h
    exact h
  · split
    · rw [(hbl _).1, (hbl _).2, (hpl _).1, (hpl _).2]
      exact hov
    · rw [(hal _ _).1, (hal _ _).2, (hpl _).1, (hpl _).2]
      exact hov

theorem foldl_dataStep_inv (l : List Nat) : ∀ (u : PdfState),
    u.fpos = blen u.file →
    (l.foldl dataStep u).fpos = blen (l.foldl dataStep u).file ∧
    u.fpos ≤ (l.foldl dataStep u).fpos := by
  induction l with
  | nil => intro u hf; exact ⟨hf, Nat.le_refl _⟩
  | cons c t ih =>
      intro u hf
      rw [List.foldl_cons]
      obtain ⟨h1, h2⟩ := dataStep_inv u c hf
      obtain ⟨h3, h4⟩ := ih (dataStep u c) h1
      exact ⟨h3, Nat.le_trans h2 h4⟩

theorem printTail_inv (u : PdfState) (parsed : List Nat)
    (hf : u.fpos = blen u.file) :
    (printTail u parsed).1.fpos = blen (printTail u parsed).1.file ∧
    u.fpos ≤ (printTail u parsed).1.fpos := by
  unfold printTail
  split
  · exact ⟨hf, Nat.le_refl _⟩
  · split
    · exact ⟨hf, Nat.le_refl _⟩
    · exact foldl_dataStep_inv parsed u hf
/-! ### Threading the session invariants through the pagination loop -/

theorem printTail_core (u : PdfState) (parsed : List Nat) :
    core (printTail u parsed).1 = core u := core_printTail u parsed

theorem postTail (w : PdfState) (parsed : List Nat)
    (h1 : w.updating = false) (h2 : w.anchorpp = 0) (h3 : w.resumed = false)
    (h4 : w.checkpp = 0) (h5 : w.errnum = 0) (h6 : w.inited = true)
    (h7 : w.active = true) (h8 : w.formbuf ≠ []) (h9 : 0 < w.fpos)
    (h10 : w.esc.parsebuf = []) (h11 : w.fpos = blen w.file)
    (h12 : w.lpp = (ctrunc (w.len * Frac.ofNat w.lpi)).toNat)
    (h13 : w.tof = TOF_UNSET → w.tof = (ctrunc (w.top * Frac.ofNat w.lpi)).toNat)
    (h14 : GeoOK w) :
    Sane ((printTail w parsed).1) ∧
    ((printTail w parsed).1.written = true → WrittenFacts ((printTail w parsed).1)) := by
  have hcore := printTail_core w parsed
  have hup0 := congrArg PdfState.updating hcore
  have hup : (printTail w parsed).1.updating = w.updating := hup0
  have hap0 := congrArg PdfState.anchorpp hcore
  have hap : (printTail w parsed).1.anchorpp = w.anchorpp := hap0
  have hrs0 := congrArg PdfState.resumed hcore
  have hrs : (printTail w parsed).1.resumed = w.resumed := hrs0
  have hcp0 := congrArg PdfState.checkpp hcore
  have hcp : (printTail w parsed).1.checkpp = w.checkpp := hcp0
  have hen0 := congrArg PdfState.errnum hcore
  have hen : (printTail w parsed).1.errnum = w.errnum := hen0
  have hin0 := congrArg PdfState.inited hcore
  have hin : (printTail w parsed).1.inited = w.inited := hin0
  have hac0 := congrArg PdfState.active hcore
  have hac : (printTail w parsed).1.active = w.active := hac0
  have hfb0 := congrArg PdfState.formbuf hcore
  have hfb : (printTail w parsed).1.formbuf = w.formbuf := hfb0
  have hes0 := congrArg PdfState.esc hcore
  have hes : (printTail w parsed).1.esc = w.esc := hes0
  have hlp0 := congrArg PdfState.lpp hcore
  have hlp : (printTail w parsed).1.lpp = w.lpp := hlp0
  have htf0 := congrArg PdfState.tof hcore
  have htf : (printTail w parsed).1.tof = w.tof := htf0
  have htp0 := congrArg PdfState.top hcore
  have htp : (printTail w parsed).1.top = w.top := htp0
  have hln0 := congrArg PdfState.len hcore
  have hln : (printTail w parsed).1.len = w.len := hln0
  have hlpi0 := congrArg PdfState.lpi hcore
  have hlpi : (printTail w parsed).1.lpi = w.lpi := hlpi0
  have hwd0 := congrArg PdfState.wid hcore
  have hwd : (printTail w parsed).1.wid = w.wid := hwd0
  have hmg0 := congrArg PdfState.margin hcore
  have hmg : (printTail w parsed).1.margin = w.margin := hmg0
  have hlo0 := congrArg PdfState.lno hcore
  have hlo : (printTail w parsed).1.lno = w.lno := hlo0
  have hcl0 := congrArg PdfState.cols hcore
  have hcl : (printTail w parsed).1.cols = w.cols := hcl0
  have hcpi0 := congrArg PdfState.cpi hcore
  have hcpi : (printTail w parsed).1.cpi = w.cpi := hcpi0
  have hft0 := congrArg PdfState.formtype hcore
  have hft : (printTail w parsed).1.formtype = w.formtype := hft0
  have hbh0 := congrArg PdfState.barh hcore
  have hbh : (printTail w parsed).1.barh = w.barh := hbh0
  obtain ⟨hi1, hi2⟩ := printTail_inv w parsed h11
  refine ⟨⟨hup.trans h1, hap.trans h2, hrs.trans h3, hcp.trans h4, hi1⟩, fun _ => ?_⟩
  refine ⟨hen.trans h5, hin.trans h6, hac.trans h7, ?_, Nat.lt_of_lt_of_le h9 hi2,
    ?_, ?_, ?_, ?_⟩
  · rw [hfb]; exact h8
  · rw [hes]; exact h10
  · rw [hlp, hln, hlpi]; exact h12
  · rw [htf, htp, hlpi]; exact h13
  · unfold GeoOK
    rw [hln, hwd, hmg, hlo, hcl, hcpi, hlpi, htf, hft, hbh]
    exact h14

theorem geoPrep_pres (s : PdfState) :
    (geoPrep s).updating = s.updating ∧ (geoPrep s).anchorpp = s.anchorpp ∧
    (geoPrep s).resumed = s.resumed ∧ (geoPrep s).checkpp = s.checkpp ∧
    (geoPrep s).fpos = s.fpos ∧ (geoPrep s).file = s.file ∧
    (geoPrep s).written = s.written ∧ (geoPrep s).errnum = s.errnum ∧
    (geoPrep s).esc = s.esc ∧ (geoPrep s).formbuf = s.formbuf ∧
    (geoPrep s).inited = s.inited ∧ (geoPrep s).sha1bytes = s.sha1bytes := by
  simp only [geoPrep]
  split <;> exact ⟨rfl, rfl, rfl, rfl, rfl, rfl, rfl, rfl, rfl, rfl, rfl, rfl⟩

theorem geoPrep_lpp (s : PdfState) :
    (geoPrep s).lpp = (ctrunc (s.len * Frac.ofNat s.lpi)).toNat := by
  simp only [geoPrep]
  split <;> rfl

theorem geoPrep_tof (s : PdfState) :
    (geoPrep s).tof = TOF_UNSET →
    (geoPrep s).tof = (ctrunc ((geoPrep s).top * Frac.ofNat (geoPrep s).lpi)).toNat := by
  simp only [geoPrep]
  split
  · intro _; rfl
  · intro h; exact absurd h (by assumption)
theorem wrf_inv (v : PdfState) (x : List Nat) (h : v.fpos = blen v.file) :
    (wrf v x).fpos = blen (wrf v x).file := by
  rw [wrf_app v x h]

/-- `wrhdr` on a fresh (non-updating, not-resumed) context writes the
header and sets `PDF_WRITTEN`. -/
theorem wrhdr_new (v : PdfState) (h1 : v.updating = false) (h2 : v.checkpp = 0) :
    wrhdr v = Except.ok { wrf v headerBytes with written := true } := by
  unfold wrhdr
  rw [h1]
  rw [if_pos (by simp)]
  rw [if_pos h2]

/-- The invariants hold after the header/form/pagination tail of a
first `pdf_print` write. -/
theorem postPrint_tail2 (s5 : PdfState) (parsed : List Nat)
    (e1 : s5.updating = false) (e2 : s5.anchorpp = 0) (e3 : s5.resumed = false)
    (e4 : s5.checkpp = 0) (e5 : s5.errnum = 0) (e6 : s5.inited = true)
    (e7 : s5.active = true) (e8 : s5.fpos = blen s5.file)
    (e9 : s5.esc.parsebuf = [])
    (e10 : s5.lpp = (ctrunc (s5.len * Frac.ofNat s5.lpi)).toNat)
    (e11 : s5.tof = TOF_UNSET → s5.tof = (ctrunc (s5.top * Frac.ofNat s5.lpi)).toNat)
    (e12 : GeoOK s5) :
    Sane ((match wrhdr s5 with
           | Except.error se => (({ se.1 with errnum := se.2 } : PdfState), se.2)
           | Except.ok s =>
             printTail (if s.formbuf.isEmpty then setform s else s) parsed)).1 ∧
    (((match wrhdr s5 with
       | Except.error se => (({ se.1 with errnum := se.2 } : PdfState), se.2)
       | Except.ok s =>
         printTail (if s.formbuf.isEmpty then setform s else s) parsed)).1.written = true →
      WrittenFacts ((match wrhdr s5 with
        | Except.error se => (({ se.1 with errnum := se.2 } : PdfState), se.2)
        | Except.ok s =>
          printTail (if s.formbuf.isEmpty then setform s else s) parsed)).1) := by
  rw [wrhdr_new s5 e1 e4]
  dsimp only
  have hw6 : (wrf s5 headerBytes).fpos = blen (wrf s5 headerBytes).file :=
    wrf_inv s5 headerBytes e8
  have hpos : 0 < s5.fpos + blen headerBytes :=
    Nat.lt_of_lt_of_le (by decide) (Nat.le_add_left _ _)
  split
  · exact postTail _ parsed e1 e2 e3 e4 e5 e6 e7 (setform_formbuf_ne_nil _)
      hpos e9 hw6 e10 e11 e12
  · refine postTail _ parsed e1 e2 e3 e4 e5 e6 e7 ?_ hpos e9 hw6 e10 e11 e12
    intro hnil
    rename_i hne
    exact hne (by
      show ({ wrf s5 headerBytes with written := true } : PdfState).formbuf.isEmpty = true
      rw [show ({ wrf s5 headerBytes with written := true } : PdfState).formbuf =
        s5.formbuf from rfl] at hnil ⊢
      rw [hnil]
      rfl)
/-- The invariants hold after `printBody` on an initialized context. -/
theorem postPrint_body (s2 : PdfState) (S : List Nat)
    (e1 : s2.updating = false) (e2 : s2.anchorpp = 0) (e3 : s2.resumed = false)
    (e4 : s2.checkpp = 0) (e5 : s2.errnum = 0) (e6 : s2.inited = true)
    (e7 : s2.active = true) (e8 : s2.fpos = blen s2.file) (e9 : s2.written = false)
    (e10 : s2.lpp = (ctrunc (s2.len * Frac.ofNat s2.lpi)).toNat)
    (e11 : s2.tof = TOF_UNSET → s2.tof = (ctrunc (s2.top * Frac.ofNat s2.lpi)).toNat)
    (e12 : GeoOK s2) :
    Sane (printBody s2 S).1 ∧
    ((printBody s2 S).1.written = true → WrittenFacts (printBody s2 S).1) := by
  unfold printBody
  simp only [parsestr]
  rw [e3]
  simp only [Bool.not_false]
  split
  · refine ⟨⟨e1, e2, rfl, e4, e8⟩, fun hw => absurd hw ?_⟩
    rw [show ({ s2 with
      esc := { (parsestrE { s2.esc with parsebuf := [] } S true).e with parsebuf := [] },
      sha1bytes := s2.sha1bytes ++ S.map (· % 256),
      resumed := false } : PdfState).written = s2.written from rfl, e9]
    simp
  · exact postPrint_tail2 _ _ e1 e2 rfl e4 e5 e6 e7 e8 rfl e10 e11 e12
/-- The session invariants hold after any first `pdf_print` call on a
sane fresh context. -/
theorem postPrint (s : PdfState) (S : List Nat)
    (hu : s.updating = false) (ha : s.anchorpp = 0) (hr : s.resumed = false)
    (hc : s.checkpp = 0) (hf : s.fpos = blen s.file)
    (hw : s.written = false) (he : s.errnum = 0) :
    Sane ((pdf_print s S).1) ∧
    ((pdf_print s S).1.written = true → WrittenFacts ((pdf_print s S).1)) := by
  obtain ⟨g1, g2, g3, g4, g5, g6, g7, g8, g9, g10, g11, g12⟩ := geoPrep_pres s
  have glen : (geoPrep s).len = s.len := by simp only [geoPrep]; split <;> rfl
  have glpi : (geoPrep s).lpi = s.lpi := by simp only [geoPrep]; split <;> rfl
  have hSg : Sane (geoPrep s) :=
    ⟨g1.trans hu, g2.trans ha, g3.trans hr, g4.trans hc, by rw [g5, g6]; exact hf⟩
  have hgw : ¬(geoPrep s).written = true := by rw [g7, hw]; simp
  have hgf : (geoPrep s).fpos = blen (geoPrep s).file := by rw [g5, g6]; exact hf
  have hlppg : (geoPrep s).lpp =
      (ctrunc ((geoPrep s).len * Frac.ofNat (geoPrep s).lpi)).toNat := by
    rw [geoPrep_lpp, glen, glpi]
  unfold pdf_print
  rw [hw]
  simp only [Bool.false_eq_true, not_false_iff, if_true]
  by_cases q1 : ctrunc (geoPrep s).len < 2
  · rw [if_pos q1]; exact ⟨hSg, fun hx => absurd hx hgw⟩
  rw [if_neg q1]
  by_cases q2 : ctrunc ((geoPrep s).wid - Frac.ofNat 2 * ((geoPrep s).margin + (geoPrep s).lno)) < 3
  · rw [if_pos q2]; exact ⟨hSg, fun hx => absurd hx hgw⟩
  rw [if_neg q2]
  by_cases q3 : ctrunc ((geoPrep s).wid - Frac.ofNat 2 * ((geoPrep s).margin + (geoPrep s).lno)) <
      ctrunc (Frac.ofNat (geoPrep s).cols / (geoPrep s).cpi)
  · rw [if_pos q3]; exact ⟨hSg, fun hx => absurd hx hgw⟩
  rw [if_neg q3]
  by_cases q4 : Frac.ltb ((geoPrep s).len * Frac.ofNat (geoPrep s).lpi) (Frac.ofNat 4) = true
  · rw [if_pos q4]; exact ⟨hSg, fun hx => absurd hx hgw⟩
  rw [if_neg q4]
  by_cases q5 : Frac.ltb ((geoPrep s).len * Frac.ofNat (geoPrep s).lpi)
      (Frac.ofNat (geoPrep s).tof) = true
  · rw [if_pos q5]; exact ⟨hSg, fun hx => absurd hx hgw⟩
  rw [if_neg q5]
  by_cases q6 : (geoPrep s).formtype ≠ PDF_JPEG ∧
      Frac.ltb (geoPrep s).barh (Frac.ofNat 1 / Frac.ofNat (geoPrep s).lpi) = true
  · rw [if_pos q6]; exact ⟨hSg, fun hx => absurd hx hgw⟩
  rw [if_neg q6]
  have hGeo : GeoOK (geoPrep s) := ⟨q1, q2, q3, q4, q5, q6⟩
  rw [show ({ geoPrep s with active := true } : PdfState).inited =
    (geoPrep s).inited from rfl]
  by_cases hinit : (geoPrep s).inited = true
  · -- session already initialized
    rw [if_pos hinit]
    exact postPrint_body _ S (g1.trans hu) (g2.trans ha) (g3.trans hr) (g4.trans hc)
      (g8.trans he) hinit rfl hgf (g7.trans hw) hlppg (geoPrep_tof s) hGeo
  · -- pdfinit runs
    rw [if_neg hinit]
    unfold pdfinit
    dsimp only
    by_cases hfr : (geoPrep s).frequire = PDF_FILE_APPEND
    · rw [if_pos hfr]
      by_cases hem : (geoPrep s).file.isEmpty = true
      · -- empty file: initialized
        rw [if_pos hem]
        dsimp only [Except.map]
        exact postPrint_body _ S (g1.trans hu) (g2.trans ha) (g3.trans hr)
          (g4.trans hc) (g8.trans he) rfl rfl hgf (g7.trans hw) hlppg
          (geoPrep_tof s) hGeo
      · -- nonempty: E_NO_APPEND
        rw [if_neg hem]
        dsimp only [Except.map]
        exact ⟨hSg, fun hx => absurd hx hgw⟩
    · rw [if_neg hfr]
      by_cases hem : (geoPrep s).file.isEmpty = true
      · -- empty file: initialized
        rw [if_pos hem]
        dsimp only [Except.map]
        exact postPrint_body _ S (g1.trans hu) (g2.trans ha) (g3.trans hr)
          (g4.trans hc) (g8.trans he) rfl rfl hgf (g7.trans hw) hlppg
          (geoPrep_tof s) hGeo
      · rw [if_neg hem]
        by_cases hnew : (geoPrep s).frequire = PDF_FILE_NEW
        · -- PDF_FILE_NEW nonempty: E_NOT_EMPTY
          rw [if_pos hnew]
          dsimp only [Except.map]
          exact ⟨hSg, fun hx => absurd hx hgw⟩
        · -- PDF_FILE_REPLACE: truncate and initialize
          rw [if_neg hnew]
          dsimp only [Except.map]
          exact postPrint_body _ S (g1.trans hu) (g2.trans ha) (g3.trans hr)
            (g4.trans hc) (g8.trans he) rfl rfl rfl (g7.trans hw) hlppg
            (geoPrep_tof s) hGeo
/-! ### Shapes of the close stages: appends plus one object each -/

theorem closeKids_shape (v : PdfState) (hf : v.fpos = blen v.file) :
    ∃ T X, closeKids v =
      ({ v with file := v.file ++ T, fpos := blen (v.file ++ T)
                obj := v.obj + 1, xref := X }, v.obj + 1) ∧
      ∀ k, k < v.obj → X k = v.xref k := by
  unfold closeKids addobj
  dsimp only
  rw [wrf_app { v with
    xref := (fun i => if i = v.obj then v.fpos else v.xref i)
    obj := v.obj + 1 } _ hf]
  dsimp only
  refine ⟨_, _, rfl, fun k hk => ?_⟩
  dsimp only
  rw [if_neg (Nat.ne_of_lt hk)]

theorem closeFonts_shape (v : PdfState) (plist : Nat) (hf : v.fpos = blen v.file) :
    ∃ T X, closeFonts v plist =
      { v with file := v.file ++ T, fpos := blen (v.file ++ T)
               obj := v.obj + 1, xref := X } ∧
      ∀ k, k < v.obj → X k = v.xref k := by
  unfold closeFonts addobj
  dsimp only
  rw [wrf_app { v with
    xref := (fun i => if i = v.obj then v.fpos else v.xref i)
    obj := v.obj + 1 } _ hf]
  dsimp only
  refine ⟨_, _, rfl, fun k hk => ?_⟩
  dsimp only
  rw [if_neg (Nat.ne_of_lt hk)]

theorem closeLeaf_shape (plist : Nat) (v : PdfState) (p : Nat)
    (hf : v.fpos = blen v.file) :
    ∃ T X, closeLeaf plist v p =
      { v with file := v.file ++ T, fpos := blen (v.file ++ T)
               obj := v.obj + 1, xref := X } ∧
      ∀ k, k < v.obj → X k = v.xref k := by
  unfold closeLeaf addobj
  dsimp only
  rw [wrf_app { v with
    xref := (fun i => if i = v.obj then v.fpos else v.xref i)
    obj := v.obj + 1 } _ hf]
  dsimp only
  refine ⟨_, _, rfl, fun k hk => ?_⟩
  dsimp only
  rw [if_neg (Nat.ne_of_lt hk)]

theorem closeAnchor_shape (v : PdfState) (plist : Nat) (hf : v.fpos = blen v.file) :
    ∃ T X, closeAnchor v plist =
      ({ v with file := v.file ++ T, fpos := blen (v.file ++ T)
                obj := v.obj + 1, xref := X }, v.obj + 1) ∧
      ∀ k, k < v.obj → X k = v.xref k := by
  unfold closeAnchor addobj
  dsimp only
  rw [wrf_app { v with
    xref := (fun i => if i = v.obj then v.fpos else v.xref i)
    obj := v.obj + 1 } _ hf]
  dsimp only
  refine ⟨_, _, rfl, fun k hk => ?_⟩
  dsimp only
  rw [if_neg (Nat.ne_of_lt hk)]

theorem closeCatalog_shape (v : PdfState) (ao : Nat) (hf : v.fpos = blen v.file) :
    ∃ T X, closeCatalog v ao =
      ({ v with file := v.file ++ T, fpos := blen (v.file ++ T)
                obj := v.obj + 1, xref := X }, v.obj + 1) ∧
      ∀ k, k < v.obj → X k = v.xref k := by
  unfold closeCatalog addobj
  dsimp only
  rw [wrf_app { v with
    xref := (fun i => if i = v.obj then v.fpos else v.xref i)
    obj := v.obj + 1 } _ hf]
  dsimp only
  refine ⟨_, _, rfl, fun k hk => ?_⟩
  dsimp only
  rw [if_neg (Nat.ne_of_lt hk)]

theorem closeInfo_shape (v : PdfState) (now : List Nat) (hf : v.fpos = blen v.file) :
    ∃ T X SH, closeInfo v now =
      ({ v with file := v.file ++ T, fpos := blen (v.file ++ T)
                obj := v.obj + 1, xref := X, sha1bytes := SH }, v.obj + 1) ∧
      ∀ k, k < v.obj → X k = v.xref k := by
  unfold closeInfo addobj
  dsimp only
  rw [wrf_app _ _ (by exact hf)]
  dsimp only
  refine ⟨_, _, _, rfl, fun k hk => ?_⟩
  dsimp only
  rw [if_neg (Nat.ne_of_lt hk)]

theorem closeXref_shape (v : PdfState) (hf : v.fpos = blen v.file) :
    ∃ T, closeXref v =
      ({ v with file := v.file ++ T, fpos := blen (v.file ++ T) }, v.fpos) := by
  unfold closeXref
  rw [wrf_app v _ hf]
  exact ⟨_, rfl⟩

theorem closeTrailer_shape (v : PdfState) (cat io xp : Nat)
    (hf : v.fpos = blen v.file) :
    ∃ T, closeTrailer v cat io xp =
      { v with file := v.file ++ T, fpos := blen (v.file ++ T) } := by
  unfold closeTrailer
  rw [wrf_app v _ hf]
  exact ⟨_, rfl⟩

theorem closeLeaves_shape : ∀ (n : Nat) (v : PdfState) (plist : Nat),
    v.fpos = blen v.file →
    ∃ T X, (List.range n).foldl (closeLeaf plist) v =
      { v with file := v.file ++ T, fpos := blen (v.file ++ T)
               obj := v.obj + n, xref := X } ∧
      ∀ k, k < v.obj → X k = v.xref k := by
  intro n
  induction n with
  | zero =>
      intro v plist hf
      refine ⟨[], v.xref, ?_, fun k hk => rfl⟩
      rw [List.append_nil, ← hf]
      rfl
  | succ m ih =>
      intro v plist hf
      obtain ⟨T, X, hfold, hwin⟩ := ih v plist hf
      rw [List.range_succ, List.foldl_append, List.foldl_cons, List.foldl_nil, hfold]
      obtain ⟨T2, X2, hleaf, hwin2⟩ := closeLeaf_shape plist
        { v with file := v.file ++ T, fpos := blen (v.file ++ T)
                 obj := v.obj + m, xref := X } m rfl
      rw [hleaf]
      dsimp only
      refine ⟨T ++ T2, X2, ?_, fun k hk => ?_⟩
      · rw [List.append_assoc]
        rfl
      · rw [hwin2 k (Nat.lt_of_lt_of_le hk (Nat.le_add_right _ _))]
        exact hwin k hk
/-- `pdfcloseMain` on a page-aligned written context appends the
session objects and trailer, allocating `5 + page` objects and
touching no xref slot below `obj`. -/
theorem closeMain_shape (v : PdfState) (now : List Nat)
    (hw : v.written = true) (hl : v.line = 0) (ha : v.anchorpp = 0)
    (hf : v.fpos = blen v.file) :
    ∃ T X SH, pdfcloseMain v now =
      ({ v with file := v.file ++ T, fpos := blen (v.file ++ T)
                obj := v.obj + (5 + v.page), xref := X, sha1bytes := SH }, PDF_OK) ∧
      ∀ k, k < v.obj → X k = v.xref k := by
  unfold pdfcloseMain
  rw [if_neg (show ¬(¬v.written = true) by simp [hw])]
  dsimp only
  rw [if_neg (show ¬(v.line ≠ 0) by simp [hl])]
  obtain ⟨T1, X1, h1, w1⟩ := closeKids_shape v hf
  rw [h1]
  dsimp only
  obtain ⟨T2, X2, h2, w2⟩ := closeFonts_shape
    { v with file := v.file ++ T1, fpos := blen (v.file ++ T1)
             obj := v.obj + 1, xref := X1 } (v.obj + 1) rfl
  rw [h2]
  dsimp only
  obtain ⟨T3, X3, h3, w3⟩ := closeLeaves_shape v.page
    { v with file := v.file ++ T1 ++ T2, fpos := blen (v.file ++ T1 ++ T2)
             obj := v.obj + 1 + 1, xref := X2 } (v.obj + 1) rfl
  rw [h3]
  dsimp only
  obtain ⟨T4, X4, h4, w4⟩ := closeAnchor_shape
    { v with file := v.file ++ T1 ++ T2 ++ T3, fpos := blen (v.file ++ T1 ++ T2 ++ T3)
             obj := v.obj + 1 + 1 + v.page, xref := X3 } (v.obj + 1) rfl
  rw [h4]
  dsimp only
  obtain ⟨T5, X5, h5, w5⟩ := closeCatalog_shape
    { v with file := v.file ++ T1 ++ T2 ++ T3 ++ T4, fpos := blen (v.file ++ T1 ++ T2 ++ T3 ++ T4)
             obj := v.obj + 1 + 1 + v.page + 1, xref := X4 } (v.obj + 1 + 1 + v.page + 1) rfl
  rw [h5]
  dsimp only
  obtain ⟨T6, X6, SH6, h6, w6⟩ := closeInfo_shape
    { v with file := v.file ++ T1 ++ T2 ++ T3 ++ T4 ++ T5, fpos := blen (v.file ++ T1 ++ T2 ++ T3 ++ T4 ++ T5)
             obj := v.obj + 1 + 1 + v.page + 1 + 1, xref := X5 } now rfl
  rw [h6]
  dsimp only
  obtain ⟨T7, h7⟩ := closeXref_shape
    { v with file := v.file ++ T1 ++ T2 ++ T3 ++ T4 ++ T5 ++ T6, fpos := blen (v.file ++ T1 ++ T2 ++ T3 ++ T4 ++ T5 ++ T6)
             obj := v.obj + 1 + 1 + v.page + 1 + 1 + 1, xref := X6, sha1bytes := SH6 } rfl
  rw [h7]
  dsimp only
  obtain ⟨T8, h8⟩ := closeTrailer_shape
    { v with file := v.file ++ T1 ++ T2 ++ T3 ++ T4 ++ T5 ++ T6 ++ T7
             fpos := blen (v.file ++ T1 ++ T2 ++ T3 ++ T4 ++ T5 ++ T6 ++ T7)
             obj := v.obj + 1 + 1 + v.page + 1 + 1 + 1, xref := X6, sha1bytes := SH6 }
    (v.obj + 1 + 1 + v.page + 1 + 1) (v.obj + 1 + 1 + v.page + 1 + 1 + 1) (blen (v.file ++ T1 ++ T2 ++ T3 ++ T4 ++ T5 ++ T6)) rfl
  rw [h8]
  unfold ftruncateHere
  dsimp only
  simp only [blen_eq]
  rw [List.take_length]
  rw [show (v.obj + 1 + 1 + v.page + 1 + 1 + 1) = v.obj + (5 + v.page) from by omega]
  rw [if_neg (show ¬(v.anchorpp ≠ 0) by simp [ha])]
  simp only [List.append_assoc]
  refine ⟨_, _, _, rfl, fun k hk => ?_⟩
  have k1 : k < v.obj + 1 := by omega
  have k2 : k < v.obj + 1 + 1 := by omega
  have k3 : k < v.obj + 1 + 1 + v.page := by omega
  have k4 : k < v.obj + 1 + 1 + v.page + 1 := by omega
  have k5 : k < v.obj + 1 + 1 + v.page + 1 + 1 := by omega
  exact (((((w6 k k5).trans (w5 k k4)).trans (w4 k k3)).trans (w3 k k2)).trans
    (w2 k k1)).trans (w1 k hk)
/-- `pdf_checkpoint` on a written context with no anchor patch pending
appends a full trailer, rewinds `fpos`, records the rewind point in
`checkpp`, clears `written`, sets `resumed`, and restores `line`,
`obj` and the hash; xref slots below `obj` are untouched. -/
theorem ckpt_shape (s : PdfState) (now : List Nat)
    (hw : s.written = true) (ha : s.anchorpp = 0) (hf : s.fpos = blen s.file) :
    ∃ T X, pdf_checkpoint s now =
      ({ s with file := s.file ++ T, checkpp := s.fpos
                written := false, resumed := true, xref := X }, PDF_OK) ∧
      ∀ k, k < s.obj → X k = s.xref k := by
  have hc : pdfclose { s with line := 0, checkpp := s.fpos } now
      = pdfcloseMain { s with line := 0, checkpp := s.fpos } now := by
    unfold pdfclose
    rw [if_neg (by simp)]
  unfold pdf_checkpoint
  rw [if_pos hw]
  dsimp only
  rw [hc]
  obtain ⟨T1, X1, SH1, h1, w1⟩ := closeMain_shape
    { s with line := 0, checkpp := s.fpos } now hw rfl ha hf
  rw [h1]
  dsimp only
  rw [if_neg (show ¬(PDF_OK ≠ PDF_OK) by simp)]
  exact ⟨T1, X1, rfl, w1⟩
/-! Projections of `mask`. -/

theorem mask_eq (u : PdfState) (X : Nat → Nat) :
    mask u X = { u with file := u.file.take u.fpos, checkpp := 0, xref := X } := rfl

theorem mask_file (u : PdfState) (X : Nat → Nat) : (mask u X).file = u.file.take u.fpos := rfl

theorem mask_fpos (u : PdfState) (X : Nat → Nat) : (mask u X).fpos = u.fpos := rfl

theorem mask_checkpp (u : PdfState) (X : Nat → Nat) : (mask u X).checkpp = 0 := rfl

theorem mask_xref (u : PdfState) (X : Nat → Nat) : (mask u X).xref = X := rfl

theorem mask_obj (u : PdfState) (X : Nat → Nat) : (mask u X).obj = u.obj := rfl

theorem mask_line (u : PdfState) (X : Nat → Nat) : (mask u X).line = u.line := rfl

theorem mask_lines (u : PdfState) (X : Nat → Nat) : (mask u X).lines = u.lines := rfl

theorem mask_lpp (u : PdfState) (X : Nat → Nat) : (mask u X).lpp = u.lpp := rfl

theorem mask_tof (u : PdfState) (X : Nat → Nat) : (mask u X).tof = u.tof := rfl

theorem mask_page (u : PdfState) (X : Nat → Nat) : (mask u X).page = u.page := rfl

theorem mask_pagebuf (u : PdfState) (X : Nat → Nat) : (mask u X).pagebuf = u.pagebuf := rfl

theorem mask_lzwbuf (u : PdfState) (X : Nat → Nat) : (mask u X).lzwbuf = u.lzwbuf := rfl

theorem mask_uncompressed (u : PdfState) (X : Nat → Nat) :
    (mask u X).uncompressed = u.uncompressed := rfl

theorem mask_formbuf (u : PdfState) (X : Nat → Nat) : (mask u X).formbuf = u.formbuf := rfl

theorem mask_formobj (u : PdfState) (X : Nat → Nat) : (mask u X).formobj = u.formobj := rfl

theorem mask_written (u : PdfState) (X : Nat → Nat) : (mask u X).written = u.written := rfl

theorem mask_errnum (u : PdfState) (X : Nat → Nat) : (mask u X).errnum = u.errnum := rfl

theorem mask_esc (u : PdfState) (X : Nat → Nat) : (mask u X).esc = u.esc := rfl

theorem mask_sha1bytes (u : PdfState) (X : Nat → Nat) :
    (mask u X).sha1bytes = u.sha1bytes := rfl

theorem mask_anchorpp (u : PdfState) (X : Nat → Nat) : (mask u X).anchorpp = u.anchorpp := rfl

theorem mask_updating (u : PdfState) (X : Nat → Nat) : (mask u X).updating = u.updating := rfl

theorem mask_title (u : PdfState) (X : Nat → Nat) : (mask u X).title = u.title := rfl

theorem mask_ctime (u : PdfState) (X : Nat → Nat) : (mask u X).ctime = u.ctime := rfl

theorem mask_oid (u : PdfState) (X : Nat → Nat) : (mask u X).oid = u.oid := rfl

theorem mask_aobj (u : PdfState) (X : Nat → Nat) : (mask u X).aobj = u.aobj := rfl

theorem mask_prevpc (u : PdfState) (X : Nat → Nat) : (mask u X).prevpc = u.prevpc := rfl

/-! `wrf` and `mask`. -/

theorem fileWrite_take (f x : List Nat) (n : Nat) :
    fileWrite (f.take n) n x = (fileWrite f n x).take (n + blen x) := by
  unfold fileWrite
  simp only [blen_eq]
  rw [List.take_take, min_self]
  rw [List.drop_eq_nil_of_le
    (le_trans (by rw [List.length_take]; exact min_le_left _ _) (Nat.le_add_right n x.length))]
  rw [List.append_nil]
  by_cases hn : n ≤ f.length
  · have hA : (f.take n).length = n := by rw [List.length_take]; exact min_eq_left hn
    conv_rhs => rw [List.take_append_eq_append_take]
    rw [@List.take_of_length_le _ (n + x.length) (f.take n ++ x)
      (le_of_eq (by rw [List.length_append, hA]))]
    rw [List.length_append, hA, Nat.sub_self, List.take_zero, List.append_nil]
  · have hfn : f.length ≤ n := Nat.le_of_lt (Nat.lt_of_not_le hn)
    rw [List.take_of_length_le hfn]
    rw [List.drop_eq_nil_of_le (le_trans hfn (Nat.le_add_right n x.length))]
    rw [List.append_nil]
    rw [List.take_of_length_le (by rw [List.length_append]; omega)]

theorem wrf_mask (u : PdfState) (X : Nat → Nat) (x : List Nat) :
    wrf (mask u X) x = mask (wrf u x) X := by
  unfold wrf
  simp only [mask_eq]
  rw [fileWrite_take]

theorem wrf_pagebuf (u : PdfState) (x : List Nat) : (wrf u x).pagebuf = u.pagebuf := rfl

theorem wrf_lzwbuf (u : PdfState) (x : List Nat) : (wrf u x).lzwbuf = u.lzwbuf := rfl

theorem wrf_xref (u : PdfState) (x : List Nat) : (wrf u x).xref = u.xref := rfl

theorem wrf_obj (u : PdfState) (x : List Nat) : (wrf u x).obj = u.obj := rfl

/-! `addobj` and `mask`; window transport. -/

theorem addobj_mask (u : PdfState) (X : Nat → Nat) :
    addobj (mask u X) =
      (mask (addobj u).1 (fun i => if i = u.obj then u.fpos else X i),
       (addobj u).2) := rfl

theorem winOf_ext (u : PdfState) (X : Nat → Nat) (h : WinOf u X) (v : PdfState)
    (hobj : v.obj = u.obj + 1)
    (hxref : v.xref = fun i => if i = u.obj then u.fpos else u.xref i) :
    WinOf v (fun i => if i = u.obj then u.fpos else X i) := by
  intro k hk
  rw [hxref]
  dsimp only
  rw [hobj] at hk
  by_cases hke : k = u.obj
  · rw [if_pos hke, if_pos hke]
  · rw [if_neg hke, if_neg hke]
    exact h k (by omega)

theorem winOf_keep (u : PdfState) (X : Nat → Nat) (h : WinOf u X) (v : PdfState)
    (hobj : v.obj = u.obj) (hxref : v.xref = u.xref) : WinOf v X := by
  intro k hk
  rw [hxref]
  rw [hobj] at hk
  exact h k hk

/-! Pagination steps and `mask`. -/

theorem promoteLine_mask (u : PdfState) (X : Nat → Nat) :
    promoteLine (mask u X) = mask (promoteLine u) X := by
  unfold promoteLine
  simp only [mask_line, mask_tof]
  by_cases h : u.line = 0
  · rw [if_pos h, if_pos h]
    rfl
  · rw [if_neg h, if_neg h]

theorem bumpLine_mask (u : PdfState) (X : Nat → Nat) :
    bumpLine (mask u X) = mask (bumpLine u) X := rfl

theorem add2line_mask (u : PdfState) (X : Nat → Nat) (t : List Nat) :
    add2line (mask u X) t = mask (add2line u t) X := rfl

theorem tofSwapGo_mask : ∀ (n : Nat) (u : PdfState) (X : Nat → Nat) (l : Nat),
    tofSwapGo (mask u X) l n = mask (tofSwapGo u l n) X := by
  intro n
  induction n with
  | zero => intro u X l; rfl
  | succ m ih =>
      intro u X l
      unfold tofSwapGo
      simp only [mask_lines, mask_lpp, mask_tof]
      by_cases h1 : u.lines.length ≤ u.lpp + l
      · rw [if_pos h1, if_pos h1]
      · rw [if_neg h1, if_neg h1]
        cases hE : u.lines.getD (u.lpp + l) none with
        | none =>
            exact ih _ _ _
        | some d =>
            dsimp only
            by_cases h2 : d ≠ []
            · rw [if_pos h2, if_pos h2]
              exact ih { u with lines := (u.lines.set l (some d)).set (u.lpp + l) (u.lines.getD l none), line := u.tof + 1 } X (l + 1)
            · rw [if_neg h2, if_neg h2]
              exact ih { u with lines := (u.lines.set l (some d)).set (u.lpp + l) (u.lines.getD l none) } X (l + 1)

theorem tofSwap_mask (u : PdfState) (X : Nat → Nat) :
    tofSwap (mask u X) = mask (tofSwap u) X := by
  unfold tofSwap
  simp only [mask_lines, mask_tof]
  by_cases h : u.tof < u.lines.length
  · rw [if_pos h, if_pos h]
    exact tofSwapGo_mask _ _ _ _
  · rw [if_neg h, if_neg h]

theorem encstm_mask (u : PdfState) (X : Nat → Nat) :
    encstm (mask u X) = (mask (encstm u).1 X, (encstm u).2) := rfl

theorem wrstream_mask (u : PdfState) (X : Nat → Nat) (o : Nat) :
    wrstream (mask u X) o = mask (wrstream u o) X := by
  unfold wrstream
  dsimp only
  simp only [mask_uncompressed, wrf_pagebuf, mask_pagebuf]
  by_cases hu : u.uncompressed = true
  · rw [if_pos hu, if_pos hu]
    rw [wrf_mask, wrf_mask, wrf_mask]
  · rw [if_neg hu, if_neg hu]
    rw [encstm_mask]
    dsimp only
    simp only [mask_pagebuf, mask_lzwbuf, wrf_pagebuf, wrf_lzwbuf]
    by_cases he : (encstm u).2 = true
    · rw [if_pos he, if_pos he]
      rw [wrf_mask, wrf_mask, wrf_mask]
    · rw [if_neg he, if_neg he]
      rw [wrf_mask, wrf_mask, wrf_mask]
theorem mask_margin (u : PdfState) (X : Nat → Nat) : (mask u X).margin = u.margin := rfl

theorem mask_wid (u : PdfState) (X : Nat → Nat) : (mask u X).wid = u.wid := rfl

theorem mask_cols (u : PdfState) (X : Nat → Nat) : (mask u X).cols = u.cols := rfl

theorem mask_cpi (u : PdfState) (X : Nat → Nat) : (mask u X).cpi = u.cpi := rfl

theorem mask_lpi (u : PdfState) (X : Nat → Nat) : (mask u X).lpi = u.lpi := rfl

theorem mask_len (u : PdfState) (X : Nat → Nat) : (mask u X).len = u.len := rfl

theorem mask_pbase (u : PdfState) (X : Nat → Nat) : (mask u X).pbase = u.pbase := rfl

theorem mask_font (u : PdfState) (X : Nat → Nat) : (mask u X).font = u.font := rfl

theorem mask_nfont (u : PdfState) (X : Nat → Nat) : (mask u X).nfont = u.nfont := rfl

theorem mask_nbold (u : PdfState) (X : Nat → Nat) : (mask u X).nbold = u.nbold := rfl

/-! Object-counter and xref-map bookkeeping of the pagination steps. -/

theorem promoteLine_keep (u : PdfState) :
    (promoteLine u).obj = u.obj ∧ (promoteLine u).xref = u.xref := by
  unfold promoteLine
  split
  · exact ⟨rfl, rfl⟩
  · exact ⟨rfl, rfl⟩

theorem tofSwapGo_keep : ∀ (n : Nat) (v : PdfState) (l : Nat),
    (tofSwapGo v l n).xref = v.xref ∧ (tofSwapGo v l n).obj = v.obj := by
  intro n
  induction n with
  | zero => intro v l; exact ⟨rfl, rfl⟩
  | succ m ih =>
      intro v l
      unfold tofSwapGo
      split
      · exact ⟨rfl, rfl⟩
      · split
        · exact ih v (l + 1)
        · dsimp only
          split
          · rw [(ih _ (l + 1)).1, (ih _ (l + 1)).2]; exact ⟨rfl, rfl⟩
          · rw [(ih _ (l + 1)).1, (ih _ (l + 1)).2]; exact ⟨rfl, rfl⟩

theorem tofSwap_keep (v : PdfState) :
    (tofSwap v).xref = v.xref ∧ (tofSwap v).obj = v.obj := by
  unfold tofSwap
  split
  · exact tofSwapGo_keep _ _ _
  · exact ⟨rfl, rfl⟩

theorem encstm_fst_xref (v : PdfState) : (encstm v).1.xref = v.xref := rfl

theorem encstm_fst_obj (v : PdfState) : (encstm v).1.obj = v.obj := rfl

theorem wrstream_keep (v : PdfState) (o : Nat) :
    (wrstream v o).xref = v.xref ∧ (wrstream v o).obj = v.obj := by
  unfold wrstream
  dsimp only
  split
  · simp [wrf_xref, wrf_obj]
  · split
    · simp [wrf_xref, wrf_obj, encstm_fst_xref, encstm_fst_obj]
    · simp [wrf_xref, wrf_obj, encstm_fst_xref, encstm_fst_obj]

set_option maxHeartbeats 2000000 in
theorem wrpage_keep (u : PdfState) :
    (wrpage u).xref = (fun i => if i = u.obj then u.fpos else u.xref i) ∧
    (wrpage u).obj = u.obj + 1 := by
  unfold wrpage
  dsimp only
  split
  · refine ⟨?_, ?_⟩
    · rw [(wrstream_keep _ _).1, (tofSwap_keep _).1]
      rfl
    · rw [(wrstream_keep _ _).2, (tofSwap_keep _).2]
      rfl
  · refine ⟨?_, ?_⟩
    · rw [(wrstream_keep _ _).1, (tofSwap_keep _).1]
      rfl
    · rw [(wrstream_keep _ _).2, (tofSwap_keep _).2]
      rfl

/-! `wrpage` commutes with `mask`. -/

set_option maxHeartbeats 2000000 in
theorem wrpage_mask (u : PdfState) (X : Nat → Nat) :
    wrpage (mask u X) =
      mask (wrpage u) (fun i => if i = u.obj then u.fpos else X i) := by
  unfold wrpage
  try dsimp only
  simp only [mask_margin, mask_wid, mask_cols, mask_cpi, mask_lpp, mask_line,
    mask_obj, mask_fpos, mask_xref, mask_formbuf, mask_lpi, mask_len,
    mask_lines, mask_page]
  by_cases hcl : u.lpp < u.line
  · rw [if_pos hcl, if_pos hcl]
    refine Eq.trans ?_ (wrstream_mask _ _ _)
    refine congrArg (fun z => wrstream z (u.obj + 1)) ?_
    refine Eq.trans ?_ (tofSwap_mask _ _)
    exact congrArg tofSwap rfl
  · rw [if_neg hcl, if_neg hcl]
    refine Eq.trans ?_ (wrstream_mask _ _ _)
    refine congrArg (fun z => wrstream z (u.obj + 1)) ?_
    refine Eq.trans ?_ (tofSwap_mask _ _)
    exact congrArg tofSwap rfl

/-! `dataStep` and the pagination fold transport `mask` and the window. -/

set_option maxHeartbeats 2000000 in
theorem dataStep_mask (u : PdfState) (X : Nat → Nat) (c : Nat) (hw : WinOf u X) :
    ∃ Y, dataStep (mask u X) c = mask (dataStep u c) Y ∧ WinOf (dataStep u c) Y := by
  unfold dataStep
  simp only [mask_lpp, mask_tof, mask_line]
  by_cases h1 : c = 0x0C
  · rw [if_pos h1, if_pos h1]
    refine ⟨(fun i => if i = (promoteLine u).obj then (promoteLine u).fpos else X i), ?_, ?_⟩
    · rw [promoteLine_mask]
      exact wrpage_mask _ _
    · exact winOf_ext (promoteLine u) X
        (winOf_keep u X hw _ (promoteLine_keep u).1 (promoteLine_keep u).2) _
        (wrpage_keep _).2 (wrpage_keep _).1
  · rw [if_neg h1, if_neg h1]
    try dsimp only
    by_cases hov : u.lpp + u.tof < u.line
    · rw [if_pos hov, if_pos hov]
      by_cases h2 : c = 0x0A
      · rw [if_pos h2, if_pos h2]
        refine ⟨(fun i => if i = u.obj then u.fpos else X i), ?_, ?_⟩
        · rw [wrpage_mask, promoteLine_mask, bumpLine_mask]
        · refine winOf_keep _ _ (winOf_keep _ _
            (winOf_ext u X hw _ (wrpage_keep u).2 (wrpage_keep u).1) _
            (promoteLine_keep _).1 (promoteLine_keep _).2) _ rfl rfl
      · rw [if_neg h2, if_neg h2]
        refine ⟨(fun i => if i = u.obj then u.fpos else X i), ?_, ?_⟩
        · rw [wrpage_mask, promoteLine_mask, add2line_mask]
        · refine winOf_keep _ _ (winOf_keep _ _
            (winOf_ext u X hw _ (wrpage_keep u).2 (wrpage_keep u).1) _
            (promoteLine_keep _).1 (promoteLine_keep _).2) _ rfl rfl
    · rw [if_neg hov, if_neg hov]
      by_cases h2 : c = 0x0A
      · rw [if_pos h2, if_pos h2]
        refine ⟨X, ?_, ?_⟩
        · rw [promoteLine_mask, bumpLine_mask]
        · exact winOf_keep _ _ (winOf_keep u X hw _
            (promoteLine_keep _).1 (promoteLine_keep _).2) _ rfl rfl
      · rw [if_neg h2, if_neg h2]
        refine ⟨X, ?_, ?_⟩
        · rw [promoteLine_mask, add2line_mask]
        · exact winOf_keep _ _ (winOf_keep u X hw _
            (promoteLine_keep _).1 (promoteLine_keep _).2) _ rfl rfl

theorem foldl_dataStep_mask (P : List Nat) : ∀ (u : PdfState) (X : Nat → Nat),
    WinOf u X →
    ∃ Y, P.foldl dataStep (mask u X) = mask (P.foldl dataStep u) Y ∧
      WinOf (P.foldl dataStep u) Y := by
  induction P with
  | nil => exact fun u X hw => ⟨X, rfl, hw⟩
  | cons c t ih =>
      intro u X hw
      obtain ⟨Y, hY, hw2⟩ := dataStep_mask u X c hw
      rw [List.foldl_cons, List.foldl_cons, hY]
      exact ih _ _ hw2

theorem printTail_mask (u : PdfState) (X : Nat → Nat) (P : List Nat) (hw : WinOf u X) :
    ∃ Y, (printTail (mask u X) P).1 = mask (printTail u P).1 Y ∧
      (printTail (mask u X) P).2 = (printTail u P).2 ∧
      WinOf (printTail u P).1 Y := by
  unfold printTail
  simp only [mask_errnum]
  by_cases h1 : u.errnum ≠ 0
  · rw [if_pos h1, if_pos h1]
    exact ⟨X, rfl, rfl, hw⟩
  · rw [if_neg h1, if_neg h1]
    by_cases h2 : P.isEmpty = true
    · rw [if_pos h2, if_pos h2]
      exact ⟨X, rfl, rfl, hw⟩
    · rw [if_neg h2, if_neg h2]
      obtain ⟨Y, hY, hw2⟩ := foldl_dataStep_mask P u X hw
      dsimp only
      rw [hY]
      exact ⟨Y, rfl, by rw [mask_errnum], hw2⟩
/-! Object-counter, xref and `anchorpp` bookkeeping of the close stages. -/

theorem closeKids_fst_obj (u : PdfState) : (closeKids u).1.obj = u.obj + 1 := rfl

theorem closeKids_fst_xref (u : PdfState) :
    (closeKids u).1.xref = fun i => if i = u.obj then u.fpos else u.xref i := rfl

theorem closeFonts_obj (u : PdfState) (pl : Nat) : (closeFonts u pl).obj = u.obj + 1 := rfl

theorem closeFonts_xref (u : PdfState) (pl : Nat) :
    (closeFonts u pl).xref = fun i => if i = u.obj then u.fpos else u.xref i := rfl

theorem closeLeaf_obj (pl : Nat) (u : PdfState) (p : Nat) :
    (closeLeaf pl u p).obj = u.obj + 1 := rfl

theorem closeLeaf_xref (pl : Nat) (u : PdfState) (p : Nat) :
    (closeLeaf pl u p).xref = fun i => if i = u.obj then u.fpos else u.xref i := rfl

theorem closeAnchor_fst_obj (u : PdfState) (pl : Nat) :
    (closeAnchor u pl).1.obj = u.obj + 1 := rfl

theorem closeAnchor_fst_xref (u : PdfState) (pl : Nat) :
    (closeAnchor u pl).1.xref = fun i => if i = u.obj then u.fpos else u.xref i := rfl

theorem closeCatalog_fst_obj (u : PdfState) (ao : Nat) :
    (closeCatalog u ao).1.obj = u.obj + 1 := rfl

theorem closeCatalog_fst_xref (u : PdfState) (ao : Nat) :
    (closeCatalog u ao).1.xref = fun i => if i = u.obj then u.fpos else u.xref i := rfl

theorem closeInfo_fst_obj (u : PdfState) (now : List Nat) :
    (closeInfo u now).1.obj = u.obj + 1 := rfl

theorem closeInfo_fst_xref (u : PdfState) (now : List Nat) :
    (closeInfo u now).1.xref = fun i => if i = u.obj then u.fpos else u.xref i := rfl

theorem closeKids_fst_anchorpp (u : PdfState) : (closeKids u).1.anchorpp = u.anchorpp := rfl

theorem closeFonts_anchorpp (u : PdfState) (pl : Nat) :
    (closeFonts u pl).anchorpp = u.anchorpp := rfl

theorem closeLeaf_anchorpp (pl : Nat) (u : PdfState) (p : Nat) :
    (closeLeaf pl u p).anchorpp = u.anchorpp := rfl

theorem closeAnchor_fst_anchorpp (u : PdfState) (pl : Nat) :
    (closeAnchor u pl).1.anchorpp = u.anchorpp := rfl

theorem closeCatalog_fst_anchorpp (u : PdfState) (ao : Nat) :
    (closeCatalog u ao).1.anchorpp = u.anchorpp := rfl

theorem closeInfo_fst_anchorpp (u : PdfState) (now : List Nat) :
    (closeInfo u now).1.anchorpp = u.anchorpp := rfl

theorem closeXref_fst_anchorpp (u : PdfState) : (closeXref u).1.anchorpp = u.anchorpp := rfl

theorem closeTrailer_anchorpp (u : PdfState) (cat io xr : Nat) :
    (closeTrailer u cat io xr).anchorpp = u.anchorpp := rfl

theorem ftruncateHere_anchorpp (u : PdfState) :
    (ftruncateHere u).anchorpp = u.anchorpp := rfl

theorem wrf_anchorpp (u : PdfState) (x : List Nat) : (wrf u x).anchorpp = u.anchorpp := rfl

theorem encstm_fst_anchorpp (v : PdfState) : (encstm v).1.anchorpp = v.anchorpp := rfl

theorem tofSwapGo_anchorpp : ∀ (n : Nat) (v : PdfState) (l : Nat),
    (tofSwapGo v l n).anchorpp = v.anchorpp := by
  intro n
  induction n with
  | zero => intro v l; rfl
  | succ m ih =>
      intro v l
      unfold tofSwapGo
      split
      · rfl
      · split
        · exact ih v (l + 1)
        · dsimp only
          split
          · rw [ih]
          · rw [ih]

theorem tofSwap_anchorpp (v : PdfState) : (tofSwap v).anchorpp = v.anchorpp := by
  unfold tofSwap
  split
  · exact tofSwapGo_anchorpp _ _ _
  · rfl

theorem wrstream_anchorpp (v : PdfState) (o : Nat) :
    (wrstream v o).anchorpp = v.anchorpp := by
  unfold wrstream
  dsimp only
  split
  · simp [wrf_anchorpp]
  · split
    · simp [wrf_anchorpp, encstm_fst_anchorpp]
    · simp [wrf_anchorpp, encstm_fst_anchorpp]

set_option maxHeartbeats 2000000 in
theorem wrpage_anchorpp (s : PdfState) : (wrpage s).anchorpp = s.anchorpp := by
  unfold wrpage
  dsimp only
  split
  · rw [wrstream_anchorpp, tofSwap_anchorpp]
    rfl
  · rw [wrstream_anchorpp, tofSwap_anchorpp]
    rfl

theorem foldl_closeLeaf_anchorpp : ∀ (L : List Nat) (pl : Nat) (u : PdfState),
    (L.foldl (closeLeaf pl) u).anchorpp = u.anchorpp := by
  intro L
  induction L with
  | nil => intro pl u; rfl
  | cons a t ih =>
      intro pl u
      rw [List.foldl_cons, ih, closeLeaf_anchorpp]

/-! The close stages commute with `mask`. -/

theorem flatMap_congrOn : ∀ (n : Nat) (f g : Nat → List Nat),
    (∀ k, k < n → f k = g k) →
    (List.range n).flatMap f = (List.range n).flatMap g := by
  intro n
  induction n with
  | zero => intro f g h; rfl
  | succ m ih =>
      intro f g h
      rw [List.range_succ, List.flatMap_append, List.flatMap_append]
      rw [ih f g (fun k hk => h k (Nat.lt_succ_of_lt hk))]
      simp only [List.flatMap_cons, List.flatMap_nil, List.append_nil]
      rw [h m (Nat.lt_succ_self m)]

set_option maxHeartbeats 2000000 in
theorem closeKids_mask (u : PdfState) (X : Nat → Nat) :
    closeKids (mask u X) =
      (mask (closeKids u).1 (fun i => if i = u.obj then u.fpos else X i),
       (closeKids u).2) := by
  unfold closeKids
  dsimp only
  conv_rhs => rw [← wrf_mask]
  rfl

set_option maxHeartbeats 2000000 in
theorem closeFonts_mask (u : PdfState) (X : Nat → Nat) (pl : Nat) :
    closeFonts (mask u X) pl =
      mask (closeFonts u pl) (fun i => if i = u.obj then u.fpos else X i) := by
  unfold closeFonts
  dsimp only
  conv_rhs => rw [← wrf_mask]
  rfl

set_option maxHeartbeats 2000000 in
theorem closeLeaf_mask (pl : Nat) (u : PdfState) (X : Nat → Nat) (p : Nat) :
    closeLeaf pl (mask u X) p =
      mask (closeLeaf pl u p) (fun i => if i = u.obj then u.fpos else X i) := by
  unfold closeLeaf
  dsimp only
  conv_rhs => rw [← wrf_mask]
  rfl

set_option maxHeartbeats 2000000 in
theorem closeAnchor_mask (u : PdfState) (X : Nat → Nat) (pl : Nat) :
    closeAnchor (mask u X) pl =
      (mask (closeAnchor u pl).1 (fun i => if i = u.obj then u.fpos else X i),
       (closeAnchor u pl).2) := by
  unfold closeAnchor
  dsimp only
  conv_rhs => rw [← wrf_mask]
  rfl

set_option maxHeartbeats 2000000 in
theorem closeCatalog_mask (u : PdfState) (X : Nat → Nat) (ao : Nat) :
    closeCatalog (mask u X) ao =
      (mask (closeCatalog u ao).1 (fun i => if i = u.obj then u.fpos else X i),
       (closeCatalog u ao).2) := by
  unfold closeCatalog
  dsimp only
  conv_rhs => rw [← wrf_mask]
  rfl

set_option maxHeartbeats 2000000 in
theorem closeInfo_mask (u : PdfState) (X : Nat → Nat) (now : List Nat) :
    closeInfo (mask u X) now =
      (mask (closeInfo u now).1 (fun i => if i = u.obj then u.fpos else X i),
       (closeInfo u now).2) := by
  unfold closeInfo
  dsimp only
  conv_rhs => rw [← wrf_mask]
  rfl

set_option maxHeartbeats 2000000 in
theorem closeXref_mask (u : PdfState) (X : Nat → Nat) (hw : WinOf u X) :
    closeXref (mask u X) = (mask (closeXref u).1 X, (closeXref u).2) := by
  unfold closeXref
  dsimp only
  simp only [mask_obj, mask_xref, mask_fpos]
  have hb : (List.range u.obj).flatMap
        (fun p => fmtNatPad 10 0x30 (X p) ++ String.bytes " " ++
          fmtNatPad 5 0x30 0 ++ String.bytes " n \n")
      = (List.range u.obj).flatMap
        (fun p => fmtNatPad 10 0x30 (u.xref p) ++ String.bytes " " ++
          fmtNatPad 5 0x30 0 ++ String.bytes " n \n") :=
    flatMap_congrOn _ _ _ (fun k hk => by rw [hw k hk])
  rw [hb]
  conv_rhs => rw [← wrf_mask]

set_option maxHeartbeats 2000000 in
theorem closeTrailer_mask (u : PdfState) (X : Nat → Nat) (cat io xr : Nat) :
    closeTrailer (mask u X) cat io xr = mask (closeTrailer u cat io xr) X := by
  unfold closeTrailer
  dsimp only
  conv_rhs => rw [← wrf_mask]
  rfl

theorem ftruncateHere_mask (u : PdfState) (X : Nat → Nat) :
    ftruncateHere (mask u X) = mask (ftruncateHere u) X := rfl

theorem ftruncate_take (v : PdfState) :
    (ftruncateHere v).file.take (ftruncateHere v).fpos = (ftruncateHere v).file := by
  show (v.file.take v.fpos).take v.fpos = v.file.take v.fpos
  rw [List.take_take, min_self]

theorem foldl_closeLeaf_mask (pl : Nat) (L : List Nat) : ∀ (u : PdfState) (X : Nat → Nat),
    WinOf u X →
    ∃ Y, L.foldl (closeLeaf pl) (mask u X) = mask (L.foldl (closeLeaf pl) u) Y ∧
      WinOf (L.foldl (closeLeaf pl) u) Y := by
  induction L with
  | nil => exact fun u X hw => ⟨X, rfl, hw⟩
  | cons a t ih =>
      intro u X hw
      rw [List.foldl_cons, List.foldl_cons, closeLeaf_mask]
      exact ih _ _ (winOf_ext u X hw _ (closeLeaf_obj pl u a) (closeLeaf_xref pl u a))
theorem pdfcloseMain_eq (s : PdfState) (now : List Nat) :
    pdfcloseMain s now =
      if ¬s.written then (s, PDF_OK)
      else closeTail (if s.line ≠ 0 then wrpage s else s) now := rfl

set_option maxHeartbeats 2000000 in
theorem closeTail_files (w : PdfState) (X : Nat → Nat) (now : List Nat)
    (ha : w.anchorpp = 0) (hwin : WinOf w X) :
    (closeTail (mask w X) now).1.file = (closeTail w now).1.file := by
  unfold closeTail
  dsimp only
  rw [closeKids_mask]
  dsimp only
  set K1 : PdfState := (closeKids w).1 with hK1
  set K2 : Nat := (closeKids w).2 with hK2
  have w1 : WinOf K1 (fun i => if i = w.obj then w.fpos else X i) :=
    winOf_ext w X hwin K1 (by rw [hK1]; exact closeKids_fst_obj w)
      (by rw [hK1]; exact closeKids_fst_xref w)
  rw [closeFonts_mask]
  simp only [mask_page]
  set F : PdfState := closeFonts K1 K2 with hF
  have w2 : WinOf F _ :=
    winOf_ext K1 _ w1 F (by rw [hF]; exact closeFonts_obj _ _)
      (by rw [hF]; exact closeFonts_xref _ _)
  obtain ⟨Y3, h3, w3⟩ := foldl_closeLeaf_mask K2 (List.range F.page) F _ w2
  rw [h3]
  set L : PdfState := (List.range F.page).foldl (closeLeaf K2) F with hL
  rw [closeAnchor_mask]
  dsimp only
  set A1 : PdfState := (closeAnchor L K2).1 with hA1
  set A2 : Nat := (closeAnchor L K2).2 with hA2
  have w4 : WinOf A1 _ :=
    winOf_ext L _ w3 A1 (by rw [hA1]; exact closeAnchor_fst_obj _ _)
      (by rw [hA1]; exact closeAnchor_fst_xref _ _)
  rw [closeCatalog_mask]
  dsimp only
  set C1 : PdfState := (closeCatalog A1 A2).1 with hC1
  set C2 : Nat := (closeCatalog A1 A2).2 with hC2
  have w5 : WinOf C1 _ :=
    winOf_ext A1 _ w4 C1 (by rw [hC1]; exact closeCatalog_fst_obj _ _)
      (by rw [hC1]; exact closeCatalog_fst_xref _ _)
  rw [closeInfo_mask]
  dsimp only
  set I1 : PdfState := (closeInfo C1 now).1 with hI1
  set I2 : Nat := (closeInfo C1 now).2 with hI2
  have w6 : WinOf I1 _ :=
    winOf_ext C1 _ w5 I1 (by rw [hI1]; exact closeInfo_fst_obj _ _)
      (by rw [hI1]; exact closeInfo_fst_xref _ _)
  rw [closeXref_mask _ _ w6]
  dsimp only
  set R1 : PdfState := (closeXref I1).1 with hR1
  set R2 : Nat := (closeXref I1).2 with hR2
  rw [closeTrailer_mask]
  set T : PdfState := closeTrailer R1 C2 I2 R2 with hT
  rw [ftruncateHere_mask]
  try dsimp only
  split
  · rename_i h
    rw [mask_anchorpp, ftruncateHere_anchorpp, hT, closeTrailer_anchorpp, hR1,
      closeXref_fst_anchorpp, hI1, closeInfo_fst_anchorpp, hC1, closeCatalog_fst_anchorpp,
      hA1, closeAnchor_fst_anchorpp, hL, foldl_closeLeaf_anchorpp, hF, closeFonts_anchorpp,
      hK1, closeKids_fst_anchorpp] at h
    exact absurd ha h
  · split
    · rename_i h2 h3
      rw [ftruncateHere_anchorpp, hT, closeTrailer_anchorpp, hR1, closeXref_fst_anchorpp,
        hI1, closeInfo_fst_anchorpp, hC1, closeCatalog_fst_anchorpp, hA1,
        closeAnchor_fst_anchorpp, hL, foldl_closeLeaf_anchorpp, hF, closeFonts_anchorpp,
        hK1, closeKids_fst_anchorpp] at h3
      exact absurd ha h3
    · rw [mask_file]
      exact ftruncate_take T

theorem pdfcloseMain_files (u : PdfState) (X : Nat → Nat) (now : List Nat)
    (hwr : u.written = true) (ha : u.anchorpp = 0) (hwin : WinOf u X) :
    (pdfcloseMain (mask u X) now).1.file = (pdfcloseMain u now).1.file := by
  rw [pdfcloseMain_eq, pdfcloseMain_eq]
  simp only [mask_written, mask_line]
  rw [if_neg (show ¬(¬u.written = true) by simp [hwr])]
  rw [if_neg (show ¬(¬u.written = true) by simp [hwr])]
  by_cases hl : u.line ≠ 0
  · rw [if_pos hl, if_pos hl]
    rw [wrpage_mask]
    exact closeTail_files (wrpage u) _ now (by rw [wrpage_anchorpp]; exact ha)
      (winOf_ext u X hwin _ (wrpage_keep u).2 (wrpage_keep u).1)
  · rw [if_neg hl, if_neg hl]
    exact closeTail_files u X now ha hwin
/-- `wrhdr` on a non-updating context resuming from a checkpoint
(`checkpp ≠ 0`): no header bytes, just set `PDF_WRITTEN`. -/
theorem wrhdr_resume (v : PdfState) (hu : v.updating = false) (hc : v.checkpp ≠ 0) :
    wrhdr v = Except.ok { v with written := true } := by
  unfold wrhdr
  rw [if_pos (show ¬(v.updating = true) by simp [hu])]
  rw [if_neg hc]

/-- `pdfclose` on a written context is the close body. -/
theorem pdfclose_written (v : PdfState) (now : List Nat) (hw : v.written = true) :
    pdfclose v now = pdfcloseMain v now := by
  unfold pdfclose
  rw [if_neg (by simp [hw])]

theorem printTail_written (u : PdfState) (parsed : List Nat) :
    (printTail u parsed).1.written = u.written := by
  have h0 := congrArg PdfState.written (core_printTail u parsed)
  exact h0

theorem printTail_anchorpp (u : PdfState) (parsed : List Nat) :
    (printTail u parsed).1.anchorpp = u.anchorpp := by
  have h0 := congrArg PdfState.anchorpp (core_printTail u parsed)
  exact h0

theorem secondPrint (p : PdfState) (T : List Nat) (X : Nat → Nat) (S2 : List Nat)
    (hw : p.written = true)
    (hanc : p.anchorpp = 0)
    (hupd : p.updating = false) (hres : p.resumed = false)
    (hchk : p.checkpp = 0) (hfpos : p.fpos = blen p.file)
    (hini : p.inited = true) (hact : p.active = true)
    (hfb : p.formbuf ≠ []) (hfp0 : 0 < p.fpos)
    (hlpp : p.lpp = (ctrunc (p.len * Frac.ofNat p.lpi)).toNat)
    (htofi : p.tof = TOF_UNSET → p.tof = (ctrunc (p.top * Frac.ofNat p.lpi)).toNat)
    (hGeo : GeoOK p)
    (hwX : ∀ k, k < p.obj → X k = p.xref k)
    (hS2 : parsedOf p S2 ≠ []) :
    ∃ Y,
      (pdf_print p S2).1 =
        mask ((pdf_print { p with file := p.file ++ T, checkpp := p.fpos, written := false, resumed := true, xref := X } S2).1) Y ∧
      WinOf ((pdf_print { p with file := p.file ++ T, checkpp := p.fpos, written := false, resumed := true, xref := X } S2).1) Y ∧
      ((pdf_print { p with file := p.file ++ T, checkpp := p.fpos, written := false, resumed := true, xref := X } S2).1).written = true ∧
      ((pdf_print { p with file := p.file ++ T, checkpp := p.fpos, written := false, resumed := true, xref := X } S2).1).anchorpp = 0 := by
  unfold pdf_print
  dsimp only
  rw [if_neg (show ¬(¬p.written = true) by simp [hw])]
  rw [if_pos (show ¬((false : Bool) = true) by simp)]
  have hgeoid : geoPrep { p with file := p.file ++ T, checkpp := p.fpos, written := false, resumed := true, xref := X } = { p with file := p.file ++ T, checkpp := p.fpos, written := false, resumed := true, xref := X } := by
    unfold geoPrep
    dsimp only
    rw [← hlpp]
    by_cases htof : p.tof = TOF_UNSET
    · rw [if_pos htof]
      rw [← (htofi htof)]
    · rw [if_neg htof]
  rw [hgeoid]
  dsimp only
  rw [if_neg hGeo.1]
  rw [if_neg hGeo.2.1]
  rw [if_neg hGeo.2.2.1]
  rw [if_neg hGeo.2.2.2.1]
  rw [if_neg hGeo.2.2.2.2.1]
  rw [if_neg hGeo.2.2.2.2.2]
  rw [if_pos hini]
  dsimp only
  unfold printBody
  dsimp only
  unfold parsestr
  dsimp only
  simp only [Bool.not_true]
  set RUN : ParseRun := parsestrE { p.esc with parsebuf := [] } S2 false with hRUN
  have hS2x : RUN.e.parsebuf ≠ [] := by rw [hRUN]; exact hS2
  rw [if_neg (show ¬(RUN.e.parsebuf.isEmpty = true ∧ RUN.ffseen = 0) from
    fun hc => hS2x (by simpa using hc.1))]
  set SA0 : PdfState := { p with esc := { RUN.e with parsebuf := [] }, checkpp := p.fpos, xref := X, active := true, written := false, resumed := false, sha1bytes := p.sha1bytes ++ List.map (fun x => x % 256) S2, file := p.file ++ T } with hSA0
  set SB : PdfState := { p with esc := { RUN.e with parsebuf := [] }, sha1bytes := p.sha1bytes ++ List.map (fun x => x % 256) S2 } with hSB
  rw [wrhdr_resume SA0 (by rw [hSA0]; exact hupd)
    (by rw [hSA0]; exact (show p.fpos ≠ 0 from by omega))]
  dsimp only
  rw [if_neg (show ¬(({ SA0 with written := true } : PdfState).formbuf.isEmpty = true) from by
    rw [hSA0]; exact (show ¬(p.formbuf.isEmpty = true) from by simpa using hfb))]
  set SA1 : PdfState := { p with esc := { RUN.e with parsebuf := [] }, checkpp := p.fpos, xref := X, active := true, written := true, resumed := false, sha1bytes := p.sha1bytes ++ List.map (fun x => x % 256) S2, file := p.file ++ T } with hSA1
  have hwin0 : WinOf SA1 p.xref := fun k hk => (hwX k hk).symm
  obtain ⟨Y, hY, hr, hwY⟩ := printTail_mask SA1 p.xref RUN.e.parsebuf hwin0
  have hmask : SB = mask SA1 p.xref := by
    rw [hSB, hSA1, mask_eq]
    dsimp only
    rw [hfpos, blen_eq, List.take_left]
    rw [hchk, hact, hw, hres]
  refine ⟨Y, ?_, ?_, ?_, ?_⟩
  · rw [hmask]
    exact hY
  · exact hwY
  · rw [printTail_written, hSA1]
  · rw [printTail_anchorpp, hSA1]
    exact hanc
/-- C3: with equal close times, running `print S1; checkpoint; print S2;
close` yields the same file as `print S1; print S2; close` whenever the
second print stores text (an empty second parse is the documented /ID
exception: the checkpointed file then hashes a different byte count). -/
theorem C3_checkpoint_transparent (s : PdfState) (S1 S2 now : List Nat)
    (hupd : s.updating = false) (hanc : s.anchorpp = 0) (hres : s.resumed = false)
    (hchk : s.checkpp = 0) (hfpos : s.fpos = blen s.file)
    (hw0 : s.written = false) (herr0 : s.errnum = 0)
    (hS2 : parsedOf (pdf_print s S1).1 S2 ≠ []) :
    runCkpt s S1 S2 now now = runPlain s S1 S2 now := by
  obtain ⟨hSane, hWF⟩ := postPrint s S1 hupd hanc hres hchk hfpos hw0 herr0
  obtain ⟨hPupd, hPanc, hPres, hPchk, hPfpos⟩ := hSane
  unfold runCkpt runPlain pdf_close
  by_cases hPw : (pdf_print s S1).1.written = true
  · obtain ⟨hPerr, hPini, hPact, hPfb, hPfp0, hPpb, hPlpp, hPtofi, hPGeo⟩ := hWF hPw
    obtain ⟨T, Xc, hck, hwinX⟩ := ckpt_shape (pdf_print s S1).1 now hPw hPanc hPfpos
    rw [hck]
    dsimp only
    obtain ⟨Y, hBA, hwY, hA2w, hA2anc⟩ := secondPrint (pdf_print s S1).1 T Xc S2
      hPw hPanc hPupd hPres hPchk hPfpos hPini hPact hPfb hPfp0 hPlpp hPtofi hPGeo hwinX hS2
    rw [hBA]
    rw [pdfclose_written _ now hA2w]
    rw [pdfclose_written _ now ((mask_written _ _).trans hA2w)]
    exact (pdfcloseMain_files _ Y now hA2w hA2anc hwY).symm
  · have hnoop : pdf_checkpoint (pdf_print s S1).1 now = ((pdf_print s S1).1, PDF_OK) := by
      unfold pdf_checkpoint
      rw [if_neg hPw]
    rw [hnoop]

set_option maxRecDepth 40000 in
set_option maxHeartbeats 4000000 in
theorem C3_checkpoint_transparent_witness :
    runCkpt tinyCfg [0x41, 0x0A] [0x42, 0x0A] nowT nowT =
      runPlain tinyCfg [0x41, 0x0A] [0x42, 0x0A] nowT :=
  C3_checkpoint_transparent tinyCfg [0x41, 0x0A] [0x42, 0x0A] nowT
    rfl rfl rfl rfl rfl rfl rfl (by decide)

end Lpt2Pdf
